import Mathlib

/-!
# Team3512/Robot-2014: `GearBox` and `DriveTrain`

A shallow embedding of `src/Subsystems/GearBox.inl` and `Subsystems/DriveTrain.cpp`.

Conventions of the embedding.

* C++ `float`/`double` values are elements of a linearly ordered field `α` and all arithmetic
  is exact; rounding and the `float`/`double` conversions are not modelled.  The definitions are
  generic in `α` (and computable, for instance at `α = ℚ`); the theorems about the sine shaping
  instantiate `α = ℝ`, `sin = Real.sin` and `M_PI = Real.pi`.
* Objects are records and every member function is a function from the record before the call
  to the record after the call.  A pointer that may be `NULL` is an `Option`.
* The only division whose divisor is read from the configuration, the one of the turn shaping
  in `DriveTrain::drive`, is checked: a zero divisor (a NaN or an infinity in C++) is the
  result `none`.
* Hardware objects of WPILib (`Talon`, `Solenoid`, `Encoder`) are cells that hold the last
  value written to them.
-/

namespace Robot2014

variable {α : Type} [LinearOrderedField α]

/-! ## Collaborators that are not part of the two embedded files -/

/-- Modelled from the spec: the configuration store (`Settings`, whose implementation is not
among the sources).  Each field is the number `atof(m_settings.getValueFor(key).c_str())` for
the key of that name, as of the last `m_settings.update()`; a missing key reads as `0`. -/
structure Settings (α : Type) where
  LOW_GEAR_SENSITIVE : α
  HIGH_GEAR_SENSITIVE : α
  TURN_NON_LINEARITY : α
  PID_DRIVE_P : α
  PID_DRIVE_I : α
  PID_DRIVE_D : α

/-- Modelled from the spec: the Closed-Loop Regulator (`../PIDController.hpp` is not among the
sources), reduced to the interface the spec lists: `enable()`, `disable()`, `isEnabled()`,
`setSetpoint`, `getSetpoint()`, `setGains(p,i,d[,f])`, `onTarget()`.  `m_onTarget` is the value
the regulator's own loop currently reports. -/
structure PIDController (α : Type) where
  m_enabled : Bool
  m_setpoint : α
  m_P : α
  m_I : α
  m_D : α
  m_F : α
  m_onTarget : Bool

/-- Modelled from the spec: `PIDController::Enable`. -/
def PIDController.Enable (pid : PIDController α) : PIDController α :=
  { pid with m_enabled := true }

/-- Modelled from the spec: `PIDController::Disable`. -/
def PIDController.Disable (pid : PIDController α) : PIDController α :=
  { pid with m_enabled := false }

/-- Modelled from the spec: `PIDController::IsEnabled`. -/
def PIDController.IsEnabled (pid : PIDController α) : Bool :=
  pid.m_enabled

/-- Modelled from the spec: `PIDController::SetSetpoint`. -/
def PIDController.SetSetpoint (pid : PIDController α) (setpoint : α) : PIDController α :=
  { pid with m_setpoint := setpoint }

/-- Modelled from the spec: `PIDController::GetSetpoint`. -/
def PIDController.GetSetpoint (pid : PIDController α) : α :=
  pid.m_setpoint

/-- Modelled from the spec: `PIDController::SetPID(p, i, d)`, which keeps the feed-forward
gain. -/
def PIDController.SetPID (pid : PIDController α) (p i d : α) : PIDController α :=
  { pid with m_P := p, m_I := i, m_D := d }

/-- Modelled from the spec: `PIDController::SetPID(p, i, d, f)`. -/
def PIDController.SetPIDF (pid : PIDController α) (p i d f : α) : PIDController α :=
  { pid with m_P := p, m_I := i, m_D := d, m_F := f }

/-- Modelled from the spec: `PIDController::OnTarget`. -/
def PIDController.OnTarget (pid : PIDController α) : Bool :=
  pid.m_onTarget

/-- Modelled from the spec: `PIDController::Reset`, which stops the loop. -/
def PIDController.Reset (pid : PIDController α) : PIDController α :=
  { pid with m_enabled := false }

/-- Modelled from the spec: the Sensor (WPILib `Encoder`): cumulative distance, instantaneous
rate and the distance-per-pulse scale factor. -/
structure Encoder (α : Type) where
  m_distance : α
  m_rate : α
  m_distancePerPulse : α

/-- Modelled from the spec: `Encoder::Reset` zeroes the cumulative distance. -/
def Encoder.Reset (enc : Encoder α) : Encoder α :=
  { enc with m_distance := 0 }

/-- Modelled from the spec: `Encoder::SetDistancePerPulse`. -/
def Encoder.SetDistancePerPulse (enc : Encoder α) (distancePerPulse : α) : Encoder α :=
  { enc with m_distancePerPulse := distancePerPulse }

/-! ## `GearBox` (`src/Subsystems/GearBox.inl`) -/

/-- The members of `GearBox<T>`.  `m_motors` holds, per motor, the value last given to
`T::Set` (what `T::Get` returns); `m_shifter` is `none` for `NULL` and otherwise the state of
the `Solenoid`; `m_pid` and `m_encoder` are `none` for `NULL`. -/
structure GearBox (α : Type) where
  m_motors : List α
  m_pid : Option (PIDController α)
  m_encoder : Option (Encoder α)
  m_havePID : Bool
  m_shifter : Option Bool
  m_isReversed : Bool
  m_targetGear : Bool

/-- `GearBox<T>::GearBox` (GearBox.inl 13-57).  A channel number `0` means "absent".
`solenoid` is the state the shifter hardware reports when the object is created; a new motor
controller reports `0`. -/
def GearBox.new (shifterChan encA encB motor1 motor2 motor3 : Nat) (solenoid : Bool) :
    GearBox α :=
  let havePID : Bool := encA != 0 && encB != 0
  let pid0 : PIDController α :=
    { m_enabled := false, m_setpoint := 0, m_P := 0, m_I := 0, m_D := 0, m_F := 0,
      m_onTarget := false }
  let enc0 : Encoder α := { m_distance := 0, m_rate := 0, m_distancePerPulse := 1 }
  { m_encoder := (if havePID then some enc0 else none),
    m_pid := (if havePID then some pid0.Enable else none),
    m_havePID := havePID,
    m_shifter := (if shifterChan != 0 then some solenoid else none),
    m_isReversed := false,
    m_targetGear := false,
    m_motors := (if motor1 != 0 then [(0 : α)] else []) ++ (if motor2 != 0 then [(0 : α)] else [])
      ++ (if motor3 != 0 then [(0 : α)] else []) }

/-- `GearBox<T>::setSetpoint` (GearBox.inl 79-90). -/
def GearBox.setSetpoint (g : GearBox α) (setpoint : α) : GearBox α :=
  if g.m_havePID then
    { g with m_pid := g.m_pid.map fun pid =>
        (if !pid.IsEnabled then pid.Enable else pid).SetSetpoint setpoint }
  else g

/-- `GearBox<T>::getSetpoint` (GearBox.inl 92-100). -/
def GearBox.getSetpoint (g : GearBox α) : Option α :=
  if g.m_havePID then g.m_pid.map PIDController.GetSetpoint else some 0

/-- `GearBox<T>::updateGear` (GearBox.inl 223-239): nothing happens without a shifter or when
the shifter already is in the target gear; the loop returns at the first motor whose
`fabs(Get())` is below `0.12`; otherwise the shifter is set to the target gear. -/
def GearBox.updateGear (g : GearBox α) : GearBox α :=
  match g.m_shifter with
  | none => g
  | some s =>
    if g.m_targetGear = s then g
    else if g.m_motors.any (fun m => decide (|m| < 0.12)) then g
    else { g with m_shifter := some g.m_targetGear }

/-- `GearBox<T>::PIDWrite` (GearBox.inl 210-221): every motor is set to `output`, negated when
the gearbox is reversed, and then `updateGear` runs. -/
def GearBox.PIDWrite (g : GearBox α) (output : α) : GearBox α :=
  GearBox.updateGear
    { g with m_motors := g.m_motors.map fun _ => if !g.m_isReversed then output else -output }

/-- `GearBox<T>::setManual` (GearBox.inl 102-111). -/
def GearBox.setManual (g : GearBox α) (value : α) : GearBox α :=
  GearBox.PIDWrite
    (if g.m_havePID then
      { g with m_pid := g.m_pid.map fun pid => if pid.IsEnabled then pid.Disable else pid }
    else g)
    value

/-- `GearBox<T>::getManual` (GearBox.inl 113-120); `none` when there is no motor `0`. -/
def GearBox.getManual (g : GearBox α) : Option α :=
  if !g.m_isReversed then g.m_motors.head? else g.m_motors.head?.map fun v => -v

/-- `GearBox<T>::setPID` (GearBox.inl 122-129). -/
def GearBox.setPID (g : GearBox α) (p i d : α) : GearBox α :=
  if g.m_havePID then { g with m_pid := g.m_pid.map fun pid => pid.SetPID p i d } else g

/-- `GearBox<T>::setF` (GearBox.inl 131-138). -/
def GearBox.setF (g : GearBox α) (f : α) : GearBox α :=
  if g.m_havePID then
    { g with m_pid := g.m_pid.map fun pid => pid.SetPIDF pid.m_P pid.m_I pid.m_D f }
  else g

/-- `GearBox<T>::setDistancePerPulse` (GearBox.inl 140-145). -/
def GearBox.setDistancePerPulse (g : GearBox α) (distancePerPulse : α) : GearBox α :=
  if g.m_havePID then
    { g with m_encoder := g.m_encoder.map fun enc => enc.SetDistancePerPulse distancePerPulse }
  else g

/-- `GearBox<T>::resetEncoder` (GearBox.inl 155-162). -/
def GearBox.resetEncoder (g : GearBox α) : GearBox α :=
  if g.m_havePID then { g with m_encoder := g.m_encoder.map Encoder.Reset } else g

/-- `GearBox<T>::getDistance` (GearBox.inl 164-172). -/
def GearBox.getDistance (g : GearBox α) : Option α :=
  if g.m_havePID then g.m_encoder.map fun enc => enc.m_distance else some 0

/-- `GearBox<T>::getRate` (GearBox.inl 174-182). -/
def GearBox.getRate (g : GearBox α) : Option α :=
  if g.m_havePID then g.m_encoder.map fun enc => enc.m_rate else some 0

/-- `GearBox<T>::setReversed` (GearBox.inl 184-187). -/
def GearBox.setReversed (g : GearBox α) (reverse : Bool) : GearBox α :=
  { g with m_isReversed := reverse }

/-- `GearBox<T>::isReversed` (GearBox.inl 189-192). -/
def GearBox.isReversed (g : GearBox α) : Bool :=
  g.m_isReversed

/-- `GearBox<T>::setGear` (GearBox.inl 194-199). -/
def GearBox.setGear (g : GearBox α) (gear : Bool) : GearBox α :=
  if g.m_shifter ≠ none then { g with m_targetGear := gear } else g

/-- `GearBox<T>::getGear` (GearBox.inl 201-208). -/
def GearBox.getGear (g : GearBox α) : Bool :=
  match g.m_shifter with
  | some s => s
  | none => false

/-- `GearBox<T>::onTarget` (GearBox.inl 241-252): `m_pid` is dereferenced without a test, so
the result is `none` when `m_pid` is `NULL`. -/
def GearBox.onTarget (g : GearBox α) : Option Bool :=
  g.m_pid.map PIDController.OnTarget

/-- `GearBox<T>::resetPID` (GearBox.inl 254-258): `m_pid` is dereferenced without a test, so
the result is `none` when `m_pid` is `NULL`. -/
def GearBox.resetPID (g : GearBox α) : Option (GearBox α) :=
  g.m_pid.map fun pid => { g with m_pid := some pid.Reset.Enable }

/-! ## `DriveTrain` (`src/Subsystems/DriveTrain.cpp`) -/

/-- The members of `DriveTrain` that `DriveTrain.cpp` reads or writes. -/
structure DriveTrain (α : Type) where
  m_settings : Settings α
  m_deadband : α
  m_sensitivity : α
  m_oldTurn : α
  m_quickStopAccumulator : α
  m_negInertiaAccumulator : α
  m_leftGrbx : GearBox α
  m_rightGrbx : GearBox α

/-- Modelled from the spec: `DriveTrain::limit`, declared in DriveTrain.hpp 84-86 ("Limits
'value' to within +- 'limit' (limit should be positive)") and defined in `DriveTrain.inl`,
which is not among the sources. -/
def limit (value lim : α) : α :=
  if value > lim then lim else if value < -lim then -lim else value

/-- `DriveTrain::applyDeadband` (DriveTrain.cpp 264-276).  The divisor `1 - m_deadband` is zero
only for a deadband of exactly `1`. -/
def DriveTrain.applyDeadband (dt : DriveTrain α) (value : α) : α :=
  if |value| > dt.m_deadband then
    if value > 0 then (value - dt.m_deadband) / (1 - dt.m_deadband)
    else (value + dt.m_deadband) / (1 - dt.m_deadband)
  else 0

/-- `DriveTrain::getGear` (DriveTrain.cpp 260-262). -/
def DriveTrain.getGear (dt : DriveTrain α) : Bool :=
  dt.m_leftGrbx.getGear

/-- The sine shaping of `DriveTrain::drive` (DriveTrain.cpp 71-72),
`sin(M_PI/2.0 * turnNonLinearity * turn) / sin(M_PI/2.0 * turnNonLinearity)`; `none` when the
divisor is zero. -/
def shapeTurn (sinF : α → α) (M_PI turnNonLinearity turn : α) : Option α :=
  if sinF (M_PI / 2 * turnNonLinearity) = 0 then none
  else some (sinF (M_PI / 2 * turnNonLinearity * turn) / sinF (M_PI / 2 * turnNonLinearity))

/-- The choice of `negInertiaScalar` in `DriveTrain::drive` (DriveTrain.cpp 79-95); `turn` is
the shaped turn. -/
def negInertiaScalar (gear : Bool) (turn negInertia : α) : α :=
  if gear then 5.0
  else if turn * negInertia > 0 then 2.5
  else if |turn| > 0.65 then 5.0
  else 3.0

/-- The decay rule that `DriveTrain::drive` applies to `m_negInertiaAccumulator`
(DriveTrain.cpp 101-109) and, without quick turn, to `m_quickStopAccumulator`
(DriveTrain.cpp 124-132). -/
def decayAccumulator (acc : α) : α :=
  if acc > 1 then acc - 1 else if acc < -1 then acc + 1 else 0

/-- The "Limit PWM bounds to [-1..1]" chain of `DriveTrain::drive` (DriveTrain.cpp 139-171);
the result is `(leftPwm, rightPwm)`. -/
def limitPwm (isQuickTurn : Bool) (leftPwm rightPwm : α) : α × α :=
  if leftPwm > 1 then
    (1, if isQuickTurn then rightPwm - (leftPwm - 1) else rightPwm)
  else if rightPwm > 1 then
    (if isQuickTurn then leftPwm - (rightPwm - 1) else leftPwm, 1)
  else if leftPwm < -1 then
    (-1, if isQuickTurn then rightPwm + (-leftPwm - 1) else rightPwm)
  else if rightPwm < -1 then
    (if isQuickTurn then leftPwm + (-rightPwm - 1) else leftPwm, -1)
  else (leftPwm, rightPwm)

/-- What one run of the steering computation of `DriveTrain::drive` produces: the new values of
the three Cheesy Drive members, `angularPower`, and the two values handed to `setManual`. -/
structure Mix (α : Type) where
  oldTurn : α
  negInertiaAccumulator : α
  quickStopAccumulator : α
  angularPower : α
  leftPwm : α
  rightPwm : α

/-- `DriveTrain::drive`, lines 63-64 and 74-171 of DriveTrain.cpp: the steering computation
around the sine shaping.  `throttle` and `turnIn` are the two inputs after `limit` and
`applyDeadband`, `shaped` is the value the sine shaping gives to `turn`. -/
def DriveTrain.mixShaped (dt : DriveTrain α) (throttle turnIn shaped : α) (isQuickTurn : Bool) :
    Mix α :=
  let negInertia := turnIn - dt.m_oldTurn
  let linearPower := throttle
  let acc := dt.m_negInertiaAccumulator + negInertia * negInertiaScalar dt.getGear shaped negInertia
  let turn := shaped + acc
  let quickStop :=
    if isQuickTurn then
      if |linearPower| < 0.2 then
        (1 - 0.1) * dt.m_quickStopAccumulator + 0.1 * limit turn 1 * 5
      else dt.m_quickStopAccumulator
    else decayAccumulator dt.m_quickStopAccumulator
  let angularPower :=
    if isQuickTurn then turn
    else |throttle| * turn * dt.m_sensitivity - dt.m_quickStopAccumulator
  let pwm := limitPwm isQuickTurn (linearPower - angularPower) (linearPower + angularPower)
  { oldTurn := turnIn
    negInertiaAccumulator := decayAccumulator acc
    quickStopAccumulator := quickStop
    angularPower := angularPower
    leftPwm := pwm.1
    rightPwm := pwm.2 }

/-- `DriveTrain::drive`, lines 56-171 of DriveTrain.cpp: everything before the two `setManual`
calls.  `sinF` and `M_PI` are `sin` and the constant `M_PI` of `<cmath>`. -/
def DriveTrain.mix (sinF : α → α) (M_PI : α) (dt : DriveTrain α) (throttle turn : α)
    (isQuickTurn : Bool) : Option (Mix α) :=
  let throttle := dt.applyDeadband (limit throttle 1)
  let turnIn := dt.applyDeadband (limit turn 1)
  (shapeTurn sinF M_PI dt.m_settings.TURN_NON_LINEARITY turnIn).map fun shaped =>
    dt.mixShaped throttle turnIn shaped isQuickTurn

/-- `DriveTrain::drive` (DriveTrain.cpp 52-175): the steering computation, then `setManual` on
the left and on the right gearbox. -/
def DriveTrain.drive (sinF : α → α) (M_PI : α) (dt : DriveTrain α) (throttle turn : α)
    (isQuickTurn : Bool) : Option (DriveTrain α) :=
  (dt.mix sinF M_PI throttle turn isQuickTurn).map fun m =>
    { dt with
      m_oldTurn := m.oldTurn
      m_negInertiaAccumulator := m.negInertiaAccumulator
      m_quickStopAccumulator := m.quickStopAccumulator
      m_leftGrbx := dt.m_leftGrbx.setManual m.leftPwm
      m_rightGrbx := dt.m_rightGrbx.setManual m.rightPwm }

/-- `DriveTrain::setDeadband` (DriveTrain.cpp 177-179). -/
def DriveTrain.setDeadband (dt : DriveTrain α) (band : α) : DriveTrain α :=
  { dt with m_deadband := band }

/-- `DriveTrain::resetEncoders` (DriveTrain.cpp 181-184). -/
def DriveTrain.resetEncoders (dt : DriveTrain α) : DriveTrain α :=
  { dt with m_leftGrbx := dt.m_leftGrbx.resetEncoder, m_rightGrbx := dt.m_rightGrbx.resetEncoder }

/-- `DriveTrain::reloadPID` (DriveTrain.cpp 186-199); `file` is what `m_settings.update()`
reads. -/
def DriveTrain.reloadPID (dt : DriveTrain α) (file : Settings α) : DriveTrain α :=
  { dt with
    m_settings := file
    m_leftGrbx := dt.m_leftGrbx.setPID file.PID_DRIVE_P file.PID_DRIVE_I file.PID_DRIVE_D
    m_rightGrbx := dt.m_rightGrbx.setPID file.PID_DRIVE_P file.PID_DRIVE_I file.PID_DRIVE_D }

/-- `DriveTrain::setLeftSetpoint` (DriveTrain.cpp 201-203). -/
def DriveTrain.setLeftSetpoint (dt : DriveTrain α) (setpt : α) : DriveTrain α :=
  { dt with m_leftGrbx := dt.m_leftGrbx.setSetpoint setpt }

/-- `DriveTrain::setRightSetpoint` (DriveTrain.cpp 205-207). -/
def DriveTrain.setRightSetpoint (dt : DriveTrain α) (setpt : α) : DriveTrain α :=
  { dt with m_rightGrbx := dt.m_rightGrbx.setSetpoint setpt }

/-- `DriveTrain::setLeftManual` (DriveTrain.cpp 209-211): calls `PIDWrite`. -/
def DriveTrain.setLeftManual (dt : DriveTrain α) (value : α) : DriveTrain α :=
  { dt with m_leftGrbx := dt.m_leftGrbx.PIDWrite value }

/-- `DriveTrain::setRightManual` (DriveTrain.cpp 213-215): calls `PIDWrite`. -/
def DriveTrain.setRightManual (dt : DriveTrain α) (value : α) : DriveTrain α :=
  { dt with m_rightGrbx := dt.m_rightGrbx.PIDWrite value }

/-- `DriveTrain::setGear` (DriveTrain.cpp 241-258). -/
def DriveTrain.setGear (dt : DriveTrain α) (gear : Bool) : DriveTrain α :=
  { dt with
    m_leftGrbx := dt.m_leftGrbx.setGear gear
    m_rightGrbx := dt.m_rightGrbx.setGear gear
    m_sensitivity :=
      if gear then dt.m_settings.HIGH_GEAR_SENSITIVE else dt.m_settings.LOW_GEAR_SENSITIVE }

/-- `DriveTrain::DriveTrain` (DriveTrain.cpp 20-45).  `file` is the content of
`RobotSettings.txt`, `solenoid` the state the shifter on channel 6 reports at start-up. -/
def DriveTrain.new (file : Settings α) (solenoid : Bool) : DriveTrain α :=
  DriveTrain.reloadPID
    { m_settings := file
      m_deadband := 0.02
      m_sensitivity := file.LOW_GEAR_SENSITIVE
      m_oldTurn := 0
      m_quickStopAccumulator := 0
      m_negInertiaAccumulator := 0
      m_leftGrbx := ((GearBox.new 6 10 11 1 2 3 solenoid).setReversed true).setDistancePerPulse
        (3.14159265 * 10.16 / 360.0)
      m_rightGrbx := (GearBox.new 0 18 9 4 5 6 false).setDistancePerPulse
        (3.14159265 * 10.16 / 360.0) }
    file

/-- A run of consecutive `drive` calls, one per element `(throttle, turn, isQuickTurn)`; `none`
as soon as one call has no result. -/
def DriveTrain.driveSeq (sinF : α → α) (M_PI : α) (dt : DriveTrain α) :
    List (α × α × Bool) → Option (DriveTrain α)
  | [] => some dt
  | (throttle, turn, isQuickTurn) :: rest =>
    match dt.drive sinF M_PI throttle turn isQuickTurn with
    | some dt1 => DriveTrain.driveSeq sinF M_PI dt1 rest
    | none => none

/-- The states of a `DriveTrain` reachable from its constructor by the public operations that
`DriveTrain.cpp` defines and that change the object. -/
inductive DriveTrain.Reachable (sinF : α → α) (M_PI : α) : DriveTrain α → Prop
  | new (file : Settings α) (solenoid : Bool) : Reachable sinF M_PI (DriveTrain.new file solenoid)
  | drive {dt dt1 : DriveTrain α} (throttle turn : α) (isQuickTurn : Bool) :
      Reachable sinF M_PI dt → dt.drive sinF M_PI throttle turn isQuickTurn = some dt1 →
      Reachable sinF M_PI dt1
  | setDeadband {dt : DriveTrain α} (band : α) :
      Reachable sinF M_PI dt → Reachable sinF M_PI (dt.setDeadband band)
  | resetEncoders {dt : DriveTrain α} :
      Reachable sinF M_PI dt → Reachable sinF M_PI dt.resetEncoders
  | reloadPID {dt : DriveTrain α} (file : Settings α) :
      Reachable sinF M_PI dt → Reachable sinF M_PI (dt.reloadPID file)
  | setLeftSetpoint {dt : DriveTrain α} (setpt : α) :
      Reachable sinF M_PI dt → Reachable sinF M_PI (dt.setLeftSetpoint setpt)
  | setRightSetpoint {dt : DriveTrain α} (setpt : α) :
      Reachable sinF M_PI dt → Reachable sinF M_PI (dt.setRightSetpoint setpt)
  | setLeftManual {dt : DriveTrain α} (value : α) :
      Reachable sinF M_PI dt → Reachable sinF M_PI (dt.setLeftManual value)
  | setRightManual {dt : DriveTrain α} (value : α) :
      Reachable sinF M_PI dt → Reachable sinF M_PI (dt.setRightManual value)
  | setGear {dt : DriveTrain α} (gear : Bool) :
      Reachable sinF M_PI dt → Reachable sinF M_PI (dt.setGear gear)

/-! ## Concrete objects used in the evaluations below -/

/-- A configuration file with both sensitivities `1`, `TURN_NON_LINEARITY = 1` and PID gains
`0`. -/
def unitSettings : Settings α :=
  { LOW_GEAR_SENSITIVE := 1, HIGH_GEAR_SENSITIVE := 1, TURN_NON_LINEARITY := 1,
    PID_DRIVE_P := 0, PID_DRIVE_I := 0, PID_DRIVE_D := 0 }

/-- A configuration file that differs from `unitSettings` in `TURN_NON_LINEARITY = 5`. -/
def fiveSettings : Settings α :=
  { LOW_GEAR_SENSITIVE := 1, HIGH_GEAR_SENSITIVE := 1, TURN_NON_LINEARITY := 5,
    PID_DRIVE_P := 0, PID_DRIVE_I := 0, PID_DRIVE_D := 0 }

/-- A gearbox with one motor that reports `0.5`, no regulator, the shifter in low gear and a
pending request for high gear. -/
def loadedGearBox : GearBox α :=
  { m_motors := [0.5], m_pid := none, m_encoder := none, m_havePID := false,
    m_shifter := some false, m_isReversed := false, m_targetGear := true }

/-- A gearbox with one motor that reports `0.5`, no regulator, the shifter in low gear and no
pending request. -/
def cruisingGearBox : GearBox α :=
  { m_motors := [0.5], m_pid := none, m_encoder := none, m_havePID := false,
    m_shifter := some false, m_isReversed := false, m_targetGear := false }

/-- A gearbox as the `DriveTrain` constructor builds its left one, before `setReversed`. -/
def regulatedGearBox : GearBox α :=
  GearBox.new 6 10 11 1 2 3 false

/-- The constructed DriveTrain (`unitSettings`, low gear) with `m_negInertiaAccumulator` set to
`2.5` and `m_quickStopAccumulator` set to `-1.5`. -/
def decayingDriveTrain : DriveTrain α :=
  { DriveTrain.new unitSettings false with
    m_negInertiaAccumulator := 2.5
    m_quickStopAccumulator := -1.5 }

/-- The input sequence of `n` repetitions of `drive(0, 0.608, false)` followed by
`drive(0, -1, false)`. -/
def oscillation : ℕ → List (α × α × Bool)
  | 0 => []
  | n + 1 => (0, 0.608, false) :: (0, -1, false) :: oscillation n

/-- A configuration file without any of the keys: every lookup gives the default `0`. -/
def emptySettings : Settings α :=
  { LOW_GEAR_SENSITIVE := 0, HIGH_GEAR_SENSITIVE := 0, TURN_NON_LINEARITY := 0,
    PID_DRIVE_P := 0, PID_DRIVE_I := 0, PID_DRIVE_D := 0 }

/-- A gearbox constructed with encoder channels `0 0`, that is without a Sensor/Regulator pair,
with a shifter on channel 6 and three motors. -/
def unregulatedGearBox : GearBox α :=
  GearBox.new 6 0 0 1 2 3 false

/-- The mirror image of `decayingDriveTrain`: the same object with the two accumulators
negated (the previous turn is `0` in both). -/
def mirroredDriveTrain : DriveTrain α :=
  { DriveTrain.new unitSettings false with
    m_negInertiaAccumulator := -2.5
    m_quickStopAccumulator := 1.5 }

/-! ## Reference formulas taken from the spec's wording -/

/-- The deadband formula as the spec words it (section 4.1, step 2): `0` when
`|x| <= deadband`, otherwise `sign(x) * (|x| - deadband) / (1 - deadband)`. -/
def deadbandFormula (deadband x : α) : α :=
  if |x| ≤ deadband then 0 else (SignType.sign x : α) * (|x| - deadband) / (1 - deadband)

/-- The mirror image of a steering result: the three Cheesy Drive members and the angular power
negated, the two values for `setManual` exchanged. -/
def Mix.mirror (m : Mix α) : Mix α :=
  { oldTurn := -m.oldTurn
    negInertiaAccumulator := -m.negInertiaAccumulator
    quickStopAccumulator := -m.quickStopAccumulator
    angularPower := -m.angularPower
    leftPwm := m.rightPwm
    rightPwm := m.leftPwm }

/-! ## Auxiliary notions for the analysis of `m_negInertiaAccumulator` -/

/-- The shifter of the gearbox is absent or already in the target gear, so that `updateGear`
never changes it. -/
def GearBox.aligned (g : GearBox α) : Prop :=
  g.m_shifter = none ∨ g.m_shifter = some g.m_targetGear

/-- Upper reference line for `m_negInertiaAccumulator` as a function of the previous turn `t`:
the accumulator minus this value cannot grow by more than `1` in the accumulation step of
`drive`. -/
def inertiaCeil (gear : Bool) (t : α) : α :=
  if gear then 5 * t else if t ≤ 0 then 3.5 * t else 2.5 * t

/-- Lower reference line for `m_negInertiaAccumulator`, the mirror image of `inertiaCeil`. -/
def inertiaFloor (gear : Bool) (t : α) : α :=
  if gear then 5 * t else if 0 ≤ t then 3.5 * t else 2.5 * t

/-- The invariant of `drive` behind the bound on `m_negInertiaAccumulator`: the previous turn is
in `[-1, 1]` and the accumulator stays within `7.5` of the two reference lines of the current
gear, within `5` as long as a gear shift is pending. -/
def DriveTrain.inertiaInv (dt : DriveTrain α) : Prop :=
  -1 ≤ dt.m_oldTurn ∧ dt.m_oldTurn ≤ 1 ∧
  dt.m_negInertiaAccumulator - inertiaCeil dt.getGear dt.m_oldTurn ≤ 7.5 ∧
  -7.5 ≤ dt.m_negInertiaAccumulator - inertiaFloor dt.getGear dt.m_oldTurn ∧
  (¬ dt.m_leftGrbx.aligned →
    dt.m_negInertiaAccumulator - inertiaCeil dt.getGear dt.m_oldTurn ≤ 5 ∧
    -5 ≤ dt.m_negInertiaAccumulator - inertiaFloor dt.getGear dt.m_oldTurn)

/-- The part of the state that the oscillating run keeps fixed: `TURN_NON_LINEARITY = 5`,
deadband `0.02`, no pending shift, low gear. -/
def DriveTrain.oscillating (dt : DriveTrain α) : Prop :=
  dt.m_settings.TURN_NON_LINEARITY = 5 ∧ dt.m_deadband = 0.02 ∧ dt.m_leftGrbx.aligned ∧
    dt.getGear = false

/-! ## `GearBox`: the shift rule -/

theorem GearBox.updateGear_of_any (g : GearBox α)
    (h : g.m_motors.any (fun m => decide (|m| < 0.12)) = true) : g.updateGear = g := by
  unfold GearBox.updateGear
  split
  · rfl
  · simp [h]

theorem GearBox.updateGear_of_all (g : GearBox α) (s : Bool) (hs : g.m_shifter = some s)
    (hne : g.m_targetGear ≠ s)
    (h : g.m_motors.any (fun m => decide (|m| < 0.12)) = false) :
    g.updateGear = { g with m_shifter := some g.m_targetGear } := by
  unfold GearBox.updateGear
  rw [hs]
  simp [hne, h]

theorem GearBox.updateGear_of_aligned (g : GearBox α) (h : g.m_shifter = some g.m_targetGear) :
    g.updateGear = g := by
  unfold GearBox.updateGear
  rw [h]
  simp

theorem GearBox.updateGear_shifter_none (g : GearBox α) (h : g.m_shifter = none) :
    g.updateGear = g := by
  unfold GearBox.updateGear
  rw [h]

theorem GearBox.updateGear_targetGear (g : GearBox α) :
    g.updateGear.m_targetGear = g.m_targetGear := by
  unfold GearBox.updateGear
  split
  · rfl
  · split_ifs <;> rfl

theorem GearBox.updateGear_motors (g : GearBox α) : g.updateGear.m_motors = g.m_motors := by
  unfold GearBox.updateGear
  split
  · rfl
  · split_ifs <;> rfl

theorem GearBox.updateGear_pid (g : GearBox α) : g.updateGear.m_pid = g.m_pid := by
  unfold GearBox.updateGear
  split
  · rfl
  · split_ifs <;> rfl

theorem GearBox.updateGear_havePID (g : GearBox α) : g.updateGear.m_havePID = g.m_havePID := by
  unfold GearBox.updateGear
  split
  · rfl
  · split_ifs <;> rfl

theorem GearBox.updateGear_isReversed (g : GearBox α) :
    g.updateGear.m_isReversed = g.m_isReversed := by
  unfold GearBox.updateGear
  split
  · rfl
  · split_ifs <;> rfl

theorem GearBox.updateGear_shifter_isSome (g : GearBox α) :
    g.updateGear.m_shifter.isSome = g.m_shifter.isSome := by
  unfold GearBox.updateGear
  split
  · rfl
  · rename_i s hs
    split_ifs <;> simp [hs]

theorem any_map_const {β : Type} (l : List β) (c : β) (p : β → Bool) :
    (l.map fun _ => c).any p = (!l.isEmpty && p c) := by
  induction l with
  | nil => rfl
  | cons a l ih =>
    simp only [List.map_cons, List.any_cons, ih, List.isEmpty_cons, Bool.not_false, Bool.true_and]
    cases p c <;> simp

theorem GearBox.setManual_eq (g : GearBox α) (v : α) :
    g.setManual v = GearBox.PIDWrite
      (if g.m_havePID then
        { g with m_pid := g.m_pid.map fun pid => if pid.IsEnabled then pid.Disable else pid }
      else g) v :=
  rfl

theorem GearBox.PIDWrite_targetGear (g : GearBox α) (v : α) :
    (g.PIDWrite v).m_targetGear = g.m_targetGear := by
  unfold GearBox.PIDWrite
  rw [GearBox.updateGear_targetGear]

theorem GearBox.setManual_targetGear (g : GearBox α) (v : α) :
    (g.setManual v).m_targetGear = g.m_targetGear := by
  rw [GearBox.setManual_eq, GearBox.PIDWrite_targetGear]
  split_ifs <;> rfl

theorem GearBox.PIDWrite_of_aligned (g : GearBox α) (v : α)
    (h : g.m_shifter = some g.m_targetGear) :
    (g.PIDWrite v).m_shifter = some g.m_targetGear := by
  unfold GearBox.PIDWrite
  rw [GearBox.updateGear_of_aligned]
  · exact h
  · exact h

theorem GearBox.PIDWrite_shift (g : GearBox α) (s : Bool) (v : α) (hs : g.m_shifter = some s)
    (hne : g.m_targetGear ≠ s) (hv : 0.12 ≤ |v|) :
    (g.PIDWrite v).m_shifter = some g.m_targetGear := by
  have : ¬ |if (!g.m_isReversed) = true then v else -v| < 0.12 := by
    split_ifs <;> simpa using hv
  unfold GearBox.PIDWrite
  rw [GearBox.updateGear_of_all (s := s)]
  · exact hs
  · exact hne
  · rw [any_map_const, decide_eq_false this, Bool.and_false]

theorem GearBox.PIDWrite_no_shift (g : GearBox α) (v : α) (hv : |v| < 0.12)
    (hm : g.m_motors ≠ []) :
    (g.PIDWrite v).m_shifter = g.m_shifter := by
  unfold GearBox.PIDWrite
  rw [GearBox.updateGear_of_any]
  rw [any_map_const]
  have : |if (!g.m_isReversed) = true then v else -v| < 0.12 := by
    split_ifs <;> simpa using hv
  rw [decide_eq_true this, Bool.and_true]
  cases hl : g.m_motors with
  | nil => exact absurd hl hm
  | cons a l => rfl

/-- C2, as the code has it: for a GearBox with a shift actuator, an evaluation of `updateGear`
in which some motor reports `|command| < 0.12` changes nothing, and an evaluation that changes
the shift actuator's state is one where every motor reports `|command| >= 0.12` and the target
gear differed from the actuator's state; the new state is the target gear. -/
theorem updateGear_shifts_only_when_all_motors_driven (g : GearBox α) (s : Bool)
    (hs : g.m_shifter = some s) :
    ((∃ m ∈ g.m_motors, |m| < 0.12) → g.updateGear = g) ∧
    (g.updateGear.m_shifter ≠ some s →
      (∀ m ∈ g.m_motors, 0.12 ≤ |m|) ∧ g.m_targetGear ≠ s ∧
        g.updateGear.m_shifter = some g.m_targetGear) := by
  constructor
  · rintro ⟨m, hm, hlt⟩
    exact g.updateGear_of_any (List.any_eq_true.mpr ⟨m, hm, by simpa using hlt⟩)
  · intro hch
    cases hany : g.m_motors.any (fun m => decide (|m| < 0.12)) with
    | true => rw [g.updateGear_of_any hany] at hch; exact absurd hs hch
    | false =>
      have hne : g.m_targetGear ≠ s := by
        intro heq
        apply hch
        rw [g.updateGear_of_aligned (by rw [hs, heq])]
        exact hs
      refine ⟨?_, hne, ?_⟩
      · intro m hm
        by_contra hlt
        have : g.m_motors.any (fun m => decide (|m| < 0.12)) = true :=
          List.any_eq_true.mpr ⟨m, hm, by simpa using hlt⟩
        rw [hany] at this
        exact Bool.false_ne_true this
      · rw [g.updateGear_of_all s hs hne hany]

/-- Witness for `updateGear_shifts_only_when_all_motors_driven`: the loaded gearbox has a shift
actuator. -/
theorem updateGear_shifts_only_when_all_motors_driven_witness :
    (loadedGearBox : GearBox ℚ).m_shifter = some false ∧
    (((∃ m ∈ (loadedGearBox : GearBox ℚ).m_motors, |m| < 0.12) →
        (loadedGearBox : GearBox ℚ).updateGear = loadedGearBox) ∧
      ((loadedGearBox : GearBox ℚ).updateGear.m_shifter ≠ some false →
        (∀ m ∈ (loadedGearBox : GearBox ℚ).m_motors, 0.12 ≤ |m|) ∧
          (loadedGearBox : GearBox ℚ).m_targetGear ≠ false ∧
          (loadedGearBox : GearBox ℚ).updateGear.m_shifter =
            some (loadedGearBox : GearBox ℚ).m_targetGear)) :=
  ⟨rfl, updateGear_shifts_only_when_all_motors_driven loadedGearBox false rfl⟩

/-- C2 fails as stated: in the loaded gearbox the only motor reports `0.5 >= 0.12`, the shift
actuator is in low gear, and one evaluation of `updateGear` puts it in high gear. -/
theorem updateGear_shifts_under_load :
    (∃ m ∈ (loadedGearBox : GearBox ℚ).m_motors, 0.12 ≤ |m|) ∧
    (loadedGearBox : GearBox ℚ).m_shifter = some false ∧
    (loadedGearBox : GearBox ℚ).updateGear.m_shifter = some true := by
  refine ⟨⟨0.5, by simp [loadedGearBox], by norm_num [abs_of_pos]⟩, rfl, ?_⟩
  simp [GearBox.updateGear, loadedGearBox]
  norm_num [abs_of_pos]

/-- C3, as the code has it: for a GearBox with a shift actuator whose requested gear differs
from the actuator's state, `setManual(v)` with `|v| >= 0.12` makes the actuator's state equal to
the requested gear in that evaluation and no later `setManual` changes it again, while
`setManual(v)` with `|v| < 0.12` on a gearbox with at least one motor leaves the actuator's
state as it was. -/
theorem setManual_shifts_iff_driven (g : GearBox α) (s : Bool) (v : α)
    (hs : g.m_shifter = some s) (hne : g.m_targetGear ≠ s) :
    (0.12 ≤ |v| → (g.setManual v).m_shifter = some g.m_targetGear ∧
      ∀ w, ((g.setManual v).setManual w).m_shifter = some g.m_targetGear) ∧
    (|v| < 0.12 → g.m_motors ≠ [] → (g.setManual v).m_shifter = some s) := by
  constructor
  · intro hv
    have h1 : (g.setManual v).m_shifter = some g.m_targetGear := by
      rw [GearBox.setManual_eq]
      split_ifs
      · exact GearBox.PIDWrite_shift _ s v hs hne hv
      · exact GearBox.PIDWrite_shift _ s v hs hne hv
    refine ⟨h1, fun w => ?_⟩
    have h2 : (g.setManual v).m_shifter = some (g.setManual v).m_targetGear := by
      rw [GearBox.setManual_targetGear]; exact h1
    rw [GearBox.setManual_eq (g.setManual v) w, ← GearBox.setManual_targetGear g v]
    split_ifs
    · exact GearBox.PIDWrite_of_aligned _ w h2
    · exact GearBox.PIDWrite_of_aligned _ w h2
  · intro hv hm
    rw [GearBox.setManual_eq, ← hs]
    split_ifs
    · exact GearBox.PIDWrite_no_shift _ v hv hm
    · exact GearBox.PIDWrite_no_shift _ v hv hm

/-- Witness for `setManual_shifts_iff_driven`: the loaded gearbox, whose requested gear (high)
differs from the state of its shift actuator (low), with `v = 0.5`. -/
theorem setManual_shifts_iff_driven_witness :
    (loadedGearBox : GearBox ℚ).m_shifter = some false ∧
    (loadedGearBox : GearBox ℚ).m_targetGear ≠ false ∧
    ((0.12 ≤ |(0.5 : ℚ)| →
        ((loadedGearBox : GearBox ℚ).setManual 0.5).m_shifter =
          some (loadedGearBox : GearBox ℚ).m_targetGear ∧
        ∀ w, (((loadedGearBox : GearBox ℚ).setManual 0.5).setManual w).m_shifter =
          some (loadedGearBox : GearBox ℚ).m_targetGear) ∧
      (|(0.5 : ℚ)| < 0.12 → (loadedGearBox : GearBox ℚ).m_motors ≠ [] →
        ((loadedGearBox : GearBox ℚ).setManual 0.5).m_shifter = some false)) :=
  ⟨rfl, by simp [loadedGearBox],
    setManual_shifts_iff_driven loadedGearBox false 0.5 rfl (by simp [loadedGearBox])⟩

/-- C3 fails as stated: after `setGear(true)` on the cruising gearbox (shift actuator in low
gear) the requested gear is high, and `setManual(0.0)` leaves the shift actuator in low
gear. -/
theorem setManual_zero_does_not_shift :
    ((cruisingGearBox : GearBox ℚ).setGear true).m_targetGear = true ∧
    ((cruisingGearBox : GearBox ℚ).setGear true).m_shifter = some false ∧
    (((cruisingGearBox : GearBox ℚ).setGear true).setManual 0).m_shifter = some false := by
  refine ⟨?_, ?_, ?_⟩
  · simp [GearBox.setGear, cruisingGearBox]
  · simp [GearBox.setGear, cruisingGearBox]
  · simp [GearBox.setGear, GearBox.setManual, GearBox.PIDWrite, GearBox.updateGear,
      cruisingGearBox]
    norm_num

/-! ## `GearBox`: manual and closed-loop mode -/

theorem GearBox.PIDWrite_pid (g : GearBox α) (v : α) : (g.PIDWrite v).m_pid = g.m_pid := by
  unfold GearBox.PIDWrite
  rw [GearBox.updateGear_pid]

/-- C5: for a GearBox that has a Sensor/Regulator pair, in any prior state, the regulator is
disabled after `setManual(v)`, and after `setSetpoint(s)` it is enabled and its setpoint (also
as `getSetpoint()` returns it) is `s`. -/
theorem setManual_disables_setSetpoint_enables (g : GearBox α) (pid : PIDController α)
    (v s : α) (hh : g.m_havePID = true) (hp : g.m_pid = some pid) :
    (g.setManual v).m_pid.map PIDController.IsEnabled = some false ∧
    (g.setSetpoint s).m_pid.map PIDController.IsEnabled = some true ∧
    (g.setSetpoint s).m_pid.map PIDController.GetSetpoint = some s ∧
    (g.setSetpoint s).getSetpoint = some s := by
  refine ⟨?_, ?_, ?_, ?_⟩
  · rw [GearBox.setManual_eq, GearBox.PIDWrite_pid]
    simp only [hh, if_true, hp, Option.map_some']
    cases h : pid.IsEnabled
    · simpa using h
    · simp [PIDController.Disable, PIDController.IsEnabled]
  · simp only [GearBox.setSetpoint, hh, if_true, hp, Option.map_some']
    cases h : pid.IsEnabled
    · simp [PIDController.Enable, PIDController.IsEnabled, PIDController.SetSetpoint]
    · simpa [PIDController.IsEnabled, PIDController.SetSetpoint] using h
  · simp [GearBox.setSetpoint, hh, hp, PIDController.GetSetpoint, PIDController.SetSetpoint]
  · simp [GearBox.setSetpoint, GearBox.getSetpoint, hh, hp, PIDController.GetSetpoint,
      PIDController.SetSetpoint]

/-- Witness for `setManual_disables_setSetpoint_enables`: the gearbox the constructor builds
from channels `6 10 11 1 2 3`, with `v = 0.5` and `s = 3`. -/
theorem setManual_disables_setSetpoint_enables_witness :
    ∃ pid, (regulatedGearBox : GearBox ℚ).m_havePID = true ∧
      (regulatedGearBox : GearBox ℚ).m_pid = some pid ∧
      ((regulatedGearBox : GearBox ℚ).setManual 0.5).m_pid.map PIDController.IsEnabled
        = some false ∧
      ((regulatedGearBox : GearBox ℚ).setSetpoint 3).m_pid.map PIDController.IsEnabled
        = some true ∧
      ((regulatedGearBox : GearBox ℚ).setSetpoint 3).m_pid.map PIDController.GetSetpoint
        = some 3 ∧
      ((regulatedGearBox : GearBox ℚ).setSetpoint 3).getSetpoint = some 3 :=
  ⟨_, rfl, rfl, setManual_disables_setSetpoint_enables regulatedGearBox _ 0.5 3 rfl rfl⟩

/-- C6, the code at the constructed DriveTrain: after `setLeftManual(v)` and after
`setRightManual(v)` the regulator of that side is still enabled, whereas `GearBox.setManual(v)`
on the same gearbox leaves it disabled. -/
theorem setLeftManual_leaves_regulator_enabled (file : Settings α) (solenoid : Bool) (v : α) :
    ((DriveTrain.new file solenoid).setLeftManual v).m_leftGrbx.m_pid.map
      PIDController.IsEnabled = some true ∧
    ((DriveTrain.new file solenoid).setRightManual v).m_rightGrbx.m_pid.map
      PIDController.IsEnabled = some true ∧
    ((DriveTrain.new file solenoid).m_leftGrbx.setManual v).m_pid.map
      PIDController.IsEnabled = some false ∧
    ((DriveTrain.new file solenoid).m_rightGrbx.setManual v).m_pid.map
      PIDController.IsEnabled = some false := by
  refine ⟨?_, ?_, ?_, ?_⟩
  · simp [DriveTrain.setLeftManual, GearBox.PIDWrite_pid, DriveTrain.new, DriveTrain.reloadPID,
      GearBox.setPID, GearBox.setDistancePerPulse, GearBox.setReversed, GearBox.new,
      PIDController.Enable, PIDController.IsEnabled, PIDController.SetPID]
  · simp [DriveTrain.setRightManual, GearBox.PIDWrite_pid, DriveTrain.new, DriveTrain.reloadPID,
      GearBox.setPID, GearBox.setDistancePerPulse, GearBox.setReversed, GearBox.new,
      PIDController.Enable, PIDController.IsEnabled, PIDController.SetPID]
  · simp [GearBox.setManual_eq, GearBox.PIDWrite_pid, DriveTrain.new, DriveTrain.reloadPID,
      GearBox.setPID, GearBox.setDistancePerPulse, GearBox.setReversed, GearBox.new,
      PIDController.Enable, PIDController.IsEnabled, PIDController.SetPID, PIDController.Disable]
  · simp [GearBox.setManual_eq, GearBox.PIDWrite_pid, DriveTrain.new, DriveTrain.reloadPID,
      GearBox.setPID, GearBox.setDistancePerPulse, GearBox.setReversed, GearBox.new,
      PIDController.Enable, PIDController.IsEnabled, PIDController.SetPID, PIDController.Disable]

/-! ## `DriveTrain`: the commanded gear of the two gearboxes -/

theorem GearBox.PIDWrite_shifter_none (g : GearBox α) (v : α) (h : g.m_shifter = none) :
    (g.PIDWrite v).m_shifter = none := by
  unfold GearBox.PIDWrite
  rw [GearBox.updateGear_shifter_none]
  · exact h
  · exact h

theorem GearBox.setManual_shifter_none (g : GearBox α) (v : α) (h : g.m_shifter = none) :
    (g.setManual v).m_shifter = none := by
  rw [GearBox.setManual_eq]
  split_ifs
  · exact GearBox.PIDWrite_shifter_none _ v h
  · exact GearBox.PIDWrite_shifter_none _ v h

theorem DriveTrain.drive_eq_some {sinF : α → α} {M_PI : α} {dt dt1 : DriveTrain α}
    {throttle turn : α} {isQuickTurn : Bool}
    (h : dt.drive sinF M_PI throttle turn isQuickTurn = some dt1) :
    ∃ m, dt.mix sinF M_PI throttle turn isQuickTurn = some m ∧
      dt1 = { dt with
        m_oldTurn := m.oldTurn
        m_negInertiaAccumulator := m.negInertiaAccumulator
        m_quickStopAccumulator := m.quickStopAccumulator
        m_leftGrbx := dt.m_leftGrbx.setManual m.leftPwm
        m_rightGrbx := dt.m_rightGrbx.setManual m.rightPwm } := by
  unfold DriveTrain.drive at h
  obtain ⟨m, hm, rfl⟩ := Option.map_eq_some'.mp h
  exact ⟨m, hm, rfl⟩

theorem DriveTrain.Reachable.right_has_no_shifter {sinF : α → α} {M_PI : α} {dt : DriveTrain α}
    (h : DriveTrain.Reachable sinF M_PI dt) :
    dt.m_rightGrbx.m_shifter = none ∧ dt.m_rightGrbx.m_targetGear = false := by
  induction h with
  | new file solenoid =>
    simp [DriveTrain.new, DriveTrain.reloadPID, GearBox.setPID, GearBox.setDistancePerPulse,
      GearBox.new]
  | drive throttle turn isQuickTurn _ hd ih =>
    obtain ⟨m, _, rfl⟩ := DriveTrain.drive_eq_some hd
    exact ⟨GearBox.setManual_shifter_none _ _ ih.1, by
      rw [GearBox.setManual_targetGear]; exact ih.2⟩
  | setDeadband band _ ih => exact ih
  | resetEncoders _ ih =>
    simp only [DriveTrain.resetEncoders, GearBox.resetEncoder]
    split_ifs <;> exact ih
  | reloadPID file _ ih =>
    simp only [DriveTrain.reloadPID, GearBox.setPID]
    split_ifs <;> exact ih
  | setLeftSetpoint setpt _ ih => exact ih
  | setRightSetpoint setpt _ ih =>
    simp only [DriveTrain.setRightSetpoint, GearBox.setSetpoint]
    split_ifs <;> exact ih
  | setLeftManual value _ ih => exact ih
  | setRightManual value _ ih =>
    exact ⟨GearBox.PIDWrite_shifter_none _ _ ih.1, by
      simp only [DriveTrain.setRightManual]
      rw [GearBox.PIDWrite_targetGear]; exact ih.2⟩
  | @setGear dt gear _ ih =>
    have hr : dt.m_rightGrbx.setGear gear = dt.m_rightGrbx := by
      simp [GearBox.setGear, ih.1]
    simp only [DriveTrain.setGear, hr]
    exact ih

theorem DriveTrain.Reachable.left_has_shifter {sinF : α → α} {M_PI : α} {dt : DriveTrain α}
    (h : DriveTrain.Reachable sinF M_PI dt) :
    dt.m_leftGrbx.m_shifter.isSome = true := by
  induction h with
  | new file solenoid =>
    simp [DriveTrain.new, DriveTrain.reloadPID, GearBox.setPID, GearBox.setDistancePerPulse,
      GearBox.setReversed, GearBox.new]
  | drive throttle turn isQuickTurn _ hd ih =>
    obtain ⟨m, _, rfl⟩ := DriveTrain.drive_eq_some hd
    simp only [GearBox.setManual_eq, GearBox.PIDWrite, GearBox.updateGear_shifter_isSome]
    split_ifs <;> exact ih
  | setDeadband band _ ih => exact ih
  | resetEncoders _ ih =>
    simp only [DriveTrain.resetEncoders, GearBox.resetEncoder]
    split_ifs <;> exact ih
  | reloadPID file _ ih =>
    simp only [DriveTrain.reloadPID, GearBox.setPID]
    split_ifs <;> exact ih
  | setLeftSetpoint setpt _ ih =>
    simp only [DriveTrain.setLeftSetpoint, GearBox.setSetpoint]
    split_ifs <;> exact ih
  | setRightSetpoint setpt _ ih => exact ih
  | setLeftManual value _ ih =>
    simp only [DriveTrain.setLeftManual, GearBox.PIDWrite, GearBox.updateGear_shifter_isSome]
    exact ih
  | setRightManual value _ ih => exact ih
  | setGear gear _ ih =>
    simp only [DriveTrain.setGear, GearBox.setGear]
    split_ifs <;> exact ih

/-- C4, as the code has it: in every state of the DriveTrain reachable from its constructor by
its public operations the right GearBox, which is built without a shift actuator, stores the
target gear `false`; after `DriveTrain.setGear(g)` the left GearBox stores the target `g` and the
right one still stores `false`, so the two stored targets are equal exactly when `g` is
`false`. -/
theorem setGear_reaches_left_gearbox_only (sinF : α → α) (M_PI : α) (dt : DriveTrain α)
    (h : DriveTrain.Reachable sinF M_PI dt) :
    dt.m_rightGrbx.m_targetGear = false ∧
    ∀ g : Bool, (dt.setGear g).m_leftGrbx.m_targetGear = g ∧
      (dt.setGear g).m_rightGrbx.m_targetGear = false ∧
      ((dt.setGear g).m_leftGrbx.m_targetGear = (dt.setGear g).m_rightGrbx.m_targetGear ↔
        g = false) := by
  have hr := h.right_has_no_shifter
  have hl := h.left_has_shifter
  have hne : dt.m_leftGrbx.m_shifter ≠ none := by
    intro hn
    rw [hn] at hl
    exact Bool.false_ne_true hl
  have h1 : ∀ g : Bool, (dt.setGear g).m_leftGrbx.m_targetGear = g := by
    intro g
    simp [DriveTrain.setGear, GearBox.setGear, hne]
  have h2 : ∀ g : Bool, (dt.setGear g).m_rightGrbx.m_targetGear = false := by
    intro g
    simp [DriveTrain.setGear, GearBox.setGear, hr.1, hr.2]
  exact ⟨hr.2, fun g => ⟨h1 g, h2 g, by rw [h1 g, h2 g]⟩⟩

/-- Witness for `setGear_reaches_left_gearbox_only`: the constructed DriveTrain is
reachable. -/
theorem setGear_reaches_left_gearbox_only_witness :
    DriveTrain.Reachable Real.sin Real.pi (DriveTrain.new (unitSettings : Settings ℝ) false) ∧
    ((DriveTrain.new (unitSettings : Settings ℝ) false).m_rightGrbx.m_targetGear = false ∧
      ∀ g : Bool,
        ((DriveTrain.new (unitSettings : Settings ℝ) false).setGear g).m_leftGrbx.m_targetGear
          = g ∧
        ((DriveTrain.new (unitSettings : Settings ℝ) false).setGear g).m_rightGrbx.m_targetGear
          = false ∧
        (((DriveTrain.new (unitSettings : Settings ℝ) false).setGear g).m_leftGrbx.m_targetGear =
          ((DriveTrain.new (unitSettings : Settings ℝ) false).setGear g).m_rightGrbx.m_targetGear
          ↔ g = false)) :=
  ⟨.new _ _, setGear_reaches_left_gearbox_only Real.sin Real.pi _ (.new _ _)⟩

/-- C4 fails as stated: the state after the constructor and `setGear(true)` is reachable, its
left GearBox stores the target gear `true` and its right GearBox stores `false`. -/
theorem setGear_true_leaves_right_target_false :
    DriveTrain.Reachable Real.sin Real.pi
      ((DriveTrain.new (unitSettings : Settings ℝ) false).setGear true) ∧
    ((DriveTrain.new (unitSettings : Settings ℝ) false).setGear true).m_leftGrbx.m_targetGear
      = true ∧
    ((DriveTrain.new (unitSettings : Settings ℝ) false).setGear true).m_rightGrbx.m_targetGear
      = false := by
  refine ⟨.setGear true (.new _ _), ?_, ?_⟩
  · simp [DriveTrain.setGear, GearBox.setGear, DriveTrain.new, DriveTrain.reloadPID,
      GearBox.setPID, GearBox.setDistancePerPulse, GearBox.setReversed, GearBox.new]
  · simp [DriveTrain.setGear, GearBox.setGear, DriveTrain.new, DriveTrain.reloadPID,
      GearBox.setPID, GearBox.setDistancePerPulse, GearBox.setReversed, GearBox.new]

/-! ## `DriveTrain::drive`: the steering computation -/

theorem limit_one_of_mem (x : α) (h1 : -1 ≤ x) (h2 : x ≤ 1) : limit x 1 = x := by
  unfold limit
  rw [if_neg (not_lt.mpr h2), if_neg (not_lt.mpr h1)]

theorem limit_one_mem (x : α) : -1 ≤ limit x 1 ∧ limit x 1 ≤ 1 := by
  unfold limit
  split_ifs with h1 h2
  · constructor <;> norm_num
  · constructor <;> norm_num
  · exact ⟨not_lt.mp h2, not_lt.mp h1⟩

theorem DriveTrain.applyDeadband_mem (dt : DriveTrain α) (x : α) (hd1 : dt.m_deadband < 1)
    (h1 : -1 ≤ x) (h2 : x ≤ 1) :
    -1 ≤ dt.applyDeadband x ∧ dt.applyDeadband x ≤ 1 := by
  have hpos : 0 < 1 - dt.m_deadband := by linarith
  unfold DriveTrain.applyDeadband
  split_ifs with ha hx
  · rw [abs_of_pos hx] at ha
    rw [le_div_iff₀ hpos, div_le_iff₀ hpos]
    constructor <;> linarith
  · rw [abs_of_nonpos (not_lt.mp hx)] at ha
    rw [le_div_iff₀ hpos, div_le_iff₀ hpos]
    constructor <;> linarith
  · constructor <;> norm_num

theorem DriveTrain.applyDeadband_zero (dt : DriveTrain α) (hd0 : 0 ≤ dt.m_deadband) :
    dt.applyDeadband 0 = 0 := by
  unfold DriveTrain.applyDeadband
  rw [if_neg]
  simpa using hd0

theorem limitPwm_of_mem (q : Bool) (l r : α) (hl1 : -1 ≤ l) (hl2 : l ≤ 1) (hr1 : -1 ≤ r)
    (hr2 : r ≤ 1) : limitPwm q l r = (l, r) := by
  unfold limitPwm
  rw [if_neg (not_lt.mpr hl2), if_neg (not_lt.mpr hr2), if_neg (not_lt.mpr hl1),
    if_neg (not_lt.mpr hr1)]

theorem shapeTurn_of_ne (sinF : α → α) (M_PI k turn : α) (h : sinF (M_PI / 2 * k) ≠ 0) :
    shapeTurn sinF M_PI k turn = some (sinF (M_PI / 2 * k * turn) / sinF (M_PI / 2 * k)) := by
  unfold shapeTurn
  rw [if_neg h]

theorem DriveTrain.mix_of_ne (sinF : α → α) (M_PI : α) (dt : DriveTrain α) (throttle turn : α)
    (isQuickTurn : Bool) (h : sinF (M_PI / 2 * dt.m_settings.TURN_NON_LINEARITY) ≠ 0) :
    dt.mix sinF M_PI throttle turn isQuickTurn = some
      (dt.mixShaped (dt.applyDeadband (limit throttle 1)) (dt.applyDeadband (limit turn 1))
        (sinF (M_PI / 2 * dt.m_settings.TURN_NON_LINEARITY * dt.applyDeadband (limit turn 1)) /
          sinF (M_PI / 2 * dt.m_settings.TURN_NON_LINEARITY)) isQuickTurn) := by
  unfold DriveTrain.mix
  simp only [shapeTurn_of_ne _ _ _ _ h, Option.map_some']

theorem decayAccumulator_zero : decayAccumulator (0 : α) = 0 := by
  unfold decayAccumulator
  split_ifs <;> first | rfl | linarith

theorem abs_decayAccumulator_le (v : α) (n : ℕ) (h : |v| ≤ n + 1) :
    |decayAccumulator v| ≤ n := by
  unfold decayAccumulator
  split_ifs with h1 h2
  · rw [abs_of_pos (by linarith)]
    have := le_abs_self v
    linarith
  · rw [abs_of_neg (by linarith)]
    have := neg_abs_le v
    linarith
  · simp

theorem DriveTrain.new_deadband (file : Settings α) (b : Bool) :
    (DriveTrain.new file b).m_deadband = 0.02 :=
  rfl

theorem DriveTrain.new_oldTurn (file : Settings α) (b : Bool) :
    (DriveTrain.new file b).m_oldTurn = 0 :=
  rfl

theorem DriveTrain.new_negInertiaAccumulator (file : Settings α) (b : Bool) :
    (DriveTrain.new file b).m_negInertiaAccumulator = 0 :=
  rfl

theorem DriveTrain.new_quickStopAccumulator (file : Settings α) (b : Bool) :
    (DriveTrain.new file b).m_quickStopAccumulator = 0 :=
  rfl

theorem DriveTrain.new_settings (file : Settings α) (b : Bool) :
    (DriveTrain.new file b).m_settings = file :=
  rfl

theorem DriveTrain.new_sensitivity (file : Settings α) (b : Bool) :
    (DriveTrain.new file b).m_sensitivity = file.LOW_GEAR_SENSITIVE :=
  rfl

theorem DriveTrain.new_getGear (file : Settings α) (b : Bool) :
    (DriveTrain.new file b).getGear = b := by
  simp [DriveTrain.getGear, GearBox.getGear, DriveTrain.new, DriveTrain.reloadPID,
    GearBox.setPID, GearBox.setDistancePerPulse, GearBox.setReversed, GearBox.new]

/-- C1, the code at two inputs: from the constructed DriveTrain (deadband 0.02, low gear,
`TURN_NON_LINEARITY = 1`, sensitivity 1), `drive(0, 1, true)` hands `leftPwm = -6` and
`rightPwm = 1` to `setManual`, after which the three motors of the (reversed) left gearbox hold
`6`, and `drive(1, 1, false)` hands `leftPwm = -2.5` and `rightPwm = 1`; the left value is
outside `[-1, 1]` both times. -/
theorem drive_passes_unclamped_left_pwm :
    ((DriveTrain.new (unitSettings : Settings ℝ) false).mix Real.sin Real.pi 0 1 true).map
      (fun m => (m.leftPwm, m.rightPwm)) = some (-6, 1) ∧
    ((DriveTrain.new (unitSettings : Settings ℝ) false).drive Real.sin Real.pi 0 1 true).map
      (fun d => (d.m_leftGrbx.m_motors, d.m_rightGrbx.m_motors)) = some ([6, 6, 6], [1, 1, 1]) ∧
    ((DriveTrain.new (unitSettings : Settings ℝ) false).mix Real.sin Real.pi 1 1 false).map
      (fun m => (m.leftPwm, m.rightPwm)) = some (-2.5, 1) := by
  have hm : (DriveTrain.new (unitSettings : Settings ℝ) false).mix Real.sin Real.pi 0 1 true =
      some { oldTurn := 1, negInertiaAccumulator := 1.5, quickStopAccumulator := 0.5,
             angularPower := 3.5, leftPwm := -6, rightPwm := 1 } := by
    simp only [DriveTrain.mix, DriveTrain.mixShaped, DriveTrain.new_deadband,
      DriveTrain.new_oldTurn, DriveTrain.new_negInertiaAccumulator,
      DriveTrain.new_quickStopAccumulator, DriveTrain.new_settings, DriveTrain.new_sensitivity,
      DriveTrain.new_getGear, DriveTrain.applyDeadband, limit, shapeTurn, unitSettings]
    norm_num [negInertiaScalar, decayAccumulator, limitPwm, limit]
  refine ⟨by rw [hm]; rfl, ?_, ?_⟩
  · rw [DriveTrain.drive, hm]
    simp only [Option.map_some', GearBox.setManual_eq, GearBox.PIDWrite,
      GearBox.updateGear_motors]
    simp [DriveTrain.new, DriveTrain.reloadPID, GearBox.setPID, GearBox.setDistancePerPulse,
      GearBox.setReversed, GearBox.new]
  · simp only [DriveTrain.mix, DriveTrain.mixShaped, DriveTrain.new_deadband,
      DriveTrain.new_oldTurn, DriveTrain.new_negInertiaAccumulator,
      DriveTrain.new_quickStopAccumulator, DriveTrain.new_settings, DriveTrain.new_sensitivity,
      DriveTrain.new_getGear, DriveTrain.applyDeadband, limit, shapeTurn, unitSettings]
    norm_num [negInertiaScalar, decayAccumulator, limitPwm, limit]

/-- C7, the code at the scenario: from the constructed DriveTrain (deadband 0.02,
`TURN_NON_LINEARITY = 1`), `drive(0.0, 1.0, true)` has angular power `3.5`, `leftPwm = -6` and
`rightPwm = 1` when the shifter reports low gear, and angular power `6`, `leftPwm = -11` and
`rightPwm = 1` when it reports high gear. -/
theorem drive_quick_turn_pivot_values :
    ((DriveTrain.new (unitSettings : Settings ℝ) false).mix Real.sin Real.pi 0 1 true).map
      (fun m => (m.angularPower, m.leftPwm, m.rightPwm)) = some (3.5, -6, 1) ∧
    ((DriveTrain.new (unitSettings : Settings ℝ) true).mix Real.sin Real.pi 0 1 true).map
      (fun m => (m.angularPower, m.leftPwm, m.rightPwm)) = some (6, -11, 1) := by
  constructor
  · simp only [DriveTrain.mix, DriveTrain.mixShaped, DriveTrain.new_deadband,
      DriveTrain.new_oldTurn, DriveTrain.new_negInertiaAccumulator,
      DriveTrain.new_quickStopAccumulator, DriveTrain.new_settings, DriveTrain.new_sensitivity,
      DriveTrain.new_getGear, DriveTrain.applyDeadband, limit, shapeTurn, unitSettings]
    norm_num [negInertiaScalar, decayAccumulator, limitPwm, limit]
  · simp only [DriveTrain.mix, DriveTrain.mixShaped, DriveTrain.new_deadband,
      DriveTrain.new_oldTurn, DriveTrain.new_negInertiaAccumulator,
      DriveTrain.new_quickStopAccumulator, DriveTrain.new_settings, DriveTrain.new_sensitivity,
      DriveTrain.new_getGear, DriveTrain.applyDeadband, limit, shapeTurn, unitSettings]
    norm_num [negInertiaScalar, decayAccumulator, limitPwm, limit]

/-- Straight driving with a defined turn shaping: from the initial steering state (previous
turn 0, both accumulators 0), for every throttle in `[-1, 1]`, every deadband in `[0, 1)` and a
turn non-linearity constant whose divisor `sin(pi/2 * k)` is not zero,
`drive(throttle, 0.0, false)` returns, and it calls `setManual` on both gearboxes with the same
value, the deadband-rescaled throttle; for throttle `0.5` and deadband `0.02` that value is
`0.48 / 0.98`, which is within `0.02` of `0.5`. -/
theorem drive_straight_passes_rescaled_throttle (dt : DriveTrain ℝ) (throttle : ℝ)
    (h0 : dt.m_oldTurn = 0) (hq : dt.m_quickStopAccumulator = 0)
    (hn : dt.m_negInertiaAccumulator = 0)
    (hd0 : 0 ≤ dt.m_deadband) (hd1 : dt.m_deadband < 1) (ht1 : -1 ≤ throttle)
    (ht2 : throttle ≤ 1)
    (hk : Real.sin (Real.pi / 2 * dt.m_settings.TURN_NON_LINEARITY) ≠ 0) :
    ∃ dt1, dt.drive Real.sin Real.pi throttle 0 false = some dt1 ∧
      dt1.m_leftGrbx = dt.m_leftGrbx.setManual (dt.applyDeadband throttle) ∧
      dt1.m_rightGrbx = dt.m_rightGrbx.setManual (dt.applyDeadband throttle) ∧
      (throttle = 0.5 → dt.m_deadband = 0.02 →
        dt.applyDeadband throttle = 0.48 / 0.98 ∧ |dt.applyDeadband throttle - 0.5| < 0.02) := by
  have hb := dt.applyDeadband_mem throttle hd1 ht1 ht2
  have hmix : dt.mix Real.sin Real.pi throttle 0 false = some
      { oldTurn := 0, negInertiaAccumulator := 0, quickStopAccumulator := 0, angularPower := 0,
        leftPwm := dt.applyDeadband throttle, rightPwm := dt.applyDeadband throttle } := by
    rw [dt.mix_of_ne Real.sin Real.pi throttle 0 false hk,
      limit_one_of_mem throttle ht1 ht2, limit_one_of_mem 0 (by norm_num) (by norm_num),
      dt.applyDeadband_zero hd0]
    simp only [DriveTrain.mixShaped, h0, hq, hn, mul_zero, Real.sin_zero, zero_div, sub_zero,
      zero_mul, add_zero, decayAccumulator_zero, Bool.false_eq_true, if_false]
    rw [limitPwm_of_mem false _ _ hb.1 hb.2 hb.1 hb.2]
  refine ⟨_, by rw [DriveTrain.drive, hmix]; rfl, rfl, rfl, ?_⟩
  intro ht hd
  have hv : dt.applyDeadband throttle = 0.48 / 0.98 := by
    unfold DriveTrain.applyDeadband
    rw [ht, hd]
    norm_num [abs_of_pos]
  rw [hv]
  constructor
  · rfl
  · rw [abs_lt]; constructor <;> norm_num

/-- An instance of `drive_straight_passes_rescaled_throttle`: the constructed DriveTrain with
`TURN_NON_LINEARITY = 1` and throttle `0.5`. -/
theorem drive_straight_passes_rescaled_throttle_witness :
    (DriveTrain.new (unitSettings : Settings ℝ) false).m_deadband < 1 ∧
    Real.sin (Real.pi / 2 *
      (DriveTrain.new (unitSettings : Settings ℝ) false).m_settings.TURN_NON_LINEARITY) ≠ 0 ∧
    ∃ dt1, (DriveTrain.new (unitSettings : Settings ℝ) false).drive Real.sin Real.pi 0.5 0 false
        = some dt1 ∧
      dt1.m_leftGrbx = (DriveTrain.new (unitSettings : Settings ℝ) false).m_leftGrbx.setManual
        ((DriveTrain.new (unitSettings : Settings ℝ) false).applyDeadband 0.5) ∧
      dt1.m_rightGrbx = (DriveTrain.new (unitSettings : Settings ℝ) false).m_rightGrbx.setManual
        ((DriveTrain.new (unitSettings : Settings ℝ) false).applyDeadband 0.5) ∧
      ((0.5 : ℝ) = 0.5 → (DriveTrain.new (unitSettings : Settings ℝ) false).m_deadband = 0.02 →
        (DriveTrain.new (unitSettings : Settings ℝ) false).applyDeadband 0.5 = 0.48 / 0.98 ∧
        |(DriveTrain.new (unitSettings : Settings ℝ) false).applyDeadband 0.5 - 0.5| < 0.02) :=
  ⟨by rw [DriveTrain.new_deadband]; norm_num,
    by simp [DriveTrain.new_settings, unitSettings],
    drive_straight_passes_rescaled_throttle (DriveTrain.new unitSettings false) 0.5 rfl rfl rfl
      (by rw [DriveTrain.new_deadband]; norm_num) (by rw [DriveTrain.new_deadband]; norm_num)
      (by norm_num) (by norm_num) (by simp [DriveTrain.new_settings, unitSettings])⟩

theorem DriveTrain.drive_of_ne (sinF : α → α) (M_PI : α) (dt : DriveTrain α) (throttle turn : α)
    (isQuickTurn : Bool) (h : sinF (M_PI / 2 * dt.m_settings.TURN_NON_LINEARITY) ≠ 0)
    (m : Mix α)
    (hm : m = dt.mixShaped (dt.applyDeadband (limit throttle 1)) (dt.applyDeadband (limit turn 1))
        (sinF (M_PI / 2 * dt.m_settings.TURN_NON_LINEARITY * dt.applyDeadband (limit turn 1)) /
          sinF (M_PI / 2 * dt.m_settings.TURN_NON_LINEARITY)) isQuickTurn) :
    dt.drive sinF M_PI throttle turn isQuickTurn = some
      { dt with
        m_oldTurn := m.oldTurn
        m_negInertiaAccumulator := m.negInertiaAccumulator
        m_quickStopAccumulator := m.quickStopAccumulator
        m_leftGrbx := dt.m_leftGrbx.setManual m.leftPwm
        m_rightGrbx := dt.m_rightGrbx.setManual m.rightPwm } := by
  rw [DriveTrain.drive, dt.mix_of_ne sinF M_PI throttle turn isQuickTurn h, hm]
  rfl

theorem DriveTrain.drive_same_turn (sinF : α → α) (M_PI : α) (dt : DriveTrain α)
    (throttle turn : α) (hk : sinF (M_PI / 2 * dt.m_settings.TURN_NON_LINEARITY) ≠ 0)
    (hturn : dt.applyDeadband (limit turn 1) = dt.m_oldTurn) :
    ∃ dt1, dt.drive sinF M_PI throttle turn false = some dt1 ∧
      dt1.m_settings = dt.m_settings ∧ dt1.m_deadband = dt.m_deadband ∧
      dt1.m_oldTurn = dt.m_oldTurn ∧
      dt1.m_negInertiaAccumulator = decayAccumulator dt.m_negInertiaAccumulator ∧
      dt1.m_quickStopAccumulator = decayAccumulator dt.m_quickStopAccumulator := by
  refine ⟨_, dt.drive_of_ne sinF M_PI throttle turn false hk _ rfl, rfl, rfl, ?_, ?_, ?_⟩
  · simp only [DriveTrain.mixShaped, hturn]
  · simp only [DriveTrain.mixShaped, hturn, sub_self, zero_mul, add_zero]
  · simp only [DriveTrain.mixShaped, Bool.false_eq_true, if_false]

theorem DriveTrain.applyDeadband_congr (dt dt1 : DriveTrain α) (h : dt1.m_deadband = dt.m_deadband)
    (x : α) : dt1.applyDeadband x = dt.applyDeadband x := by
  unfold DriveTrain.applyDeadband
  rw [h]

/-- C9: for every initial value `v` of `m_negInertiaAccumulator` and of
`m_quickStopAccumulator`, a run of `n` consecutive `drive()` calls without quick turn whose turn
input, after limiting and deadband, equals the previous turn (so that `negInertia = 0` in every
call) returns, and afterwards the accumulator is exactly `0` whenever `n >= ceil(|v|)`. -/
theorem accumulators_decay_to_zero [FloorRing α] (sinF : α → α) (M_PI : α) (dt : DriveTrain α)
    (inputs : List (α × α × Bool))
    (hk : sinF (M_PI / 2 * dt.m_settings.TURN_NON_LINEARITY) ≠ 0)
    (hin : ∀ x ∈ inputs, dt.applyDeadband (limit x.2.1 1) = dt.m_oldTurn ∧ x.2.2 = false) :
    ∃ dt1, dt.driveSeq sinF M_PI inputs = some dt1 ∧
      (⌈|dt.m_negInertiaAccumulator|⌉₊ ≤ inputs.length → dt1.m_negInertiaAccumulator = 0) ∧
      (⌈|dt.m_quickStopAccumulator|⌉₊ ≤ inputs.length → dt1.m_quickStopAccumulator = 0) := by
  induction inputs generalizing dt with
  | nil =>
    refine ⟨dt, rfl, ?_, ?_⟩
    · intro h
      simpa using h
    · intro h
      simpa using h
  | cons x rest ih =>
    obtain ⟨throttle, turn, q⟩ := x
    have hx := hin (throttle, turn, q) (List.mem_cons_self _ _)
    have hq : q = false := hx.2
    subst hq
    obtain ⟨dt1, hd, hs, hdb, hot, hna, hqs⟩ :=
      dt.drive_same_turn sinF M_PI throttle turn hk hx.1
    have hin1 : ∀ y ∈ rest, dt1.applyDeadband (limit y.2.1 1) = dt1.m_oldTurn ∧ y.2.2 = false := by
      intro y hy
      rw [dt.applyDeadband_congr dt1 hdb, hot]
      exact hin y (List.mem_cons_of_mem _ hy)
    obtain ⟨dt2, hd2, h1, h2⟩ := ih dt1 (by rw [hs]; exact hk) hin1
    refine ⟨dt2, by simp only [DriveTrain.driveSeq, hd, hd2], ?_, ?_⟩
    · intro h
      apply h1
      rw [Nat.ceil_le, hna]
      apply abs_decayAccumulator_le
      have := Nat.ceil_le.mp h
      simpa using this
    · intro h
      apply h2
      rw [Nat.ceil_le, hqs]
      apply abs_decayAccumulator_le
      have := Nat.ceil_le.mp h
      simpa using this

/-- Witness for `accumulators_decay_to_zero`: three calls `drive(0.3, 0, false)` from a state
with previous turn `0`, `m_negInertiaAccumulator = 2.5` and `m_quickStopAccumulator = -1.5`. -/
theorem accumulators_decay_to_zero_witness :
    (∀ x ∈ List.replicate 3 ((0.3 : ℝ), (0 : ℝ), false),
      (decayingDriveTrain : DriveTrain ℝ).applyDeadband (limit x.2.1 1)
        = (decayingDriveTrain : DriveTrain ℝ).m_oldTurn ∧ x.2.2 = false) ∧
    ∃ dt1, (decayingDriveTrain : DriveTrain ℝ).driveSeq Real.sin Real.pi
        (List.replicate 3 ((0.3 : ℝ), (0 : ℝ), false)) = some dt1 ∧
      (⌈|(decayingDriveTrain : DriveTrain ℝ).m_negInertiaAccumulator|⌉₊ ≤
          (List.replicate 3 ((0.3 : ℝ), (0 : ℝ), false)).length →
        dt1.m_negInertiaAccumulator = 0) ∧
      (⌈|(decayingDriveTrain : DriveTrain ℝ).m_quickStopAccumulator|⌉₊ ≤
          (List.replicate 3 ((0.3 : ℝ), (0 : ℝ), false)).length →
        dt1.m_quickStopAccumulator = 0) :=
  have hin : ∀ x ∈ List.replicate 3 ((0.3 : ℝ), (0 : ℝ), false),
      (decayingDriveTrain : DriveTrain ℝ).applyDeadband (limit x.2.1 1)
        = (decayingDriveTrain : DriveTrain ℝ).m_oldTurn ∧ x.2.2 = false := by
    intro x hx
    rw [List.eq_of_mem_replicate hx]
    refine ⟨?_, rfl⟩
    rw [limit_one_of_mem 0 (by norm_num) (by norm_num)]
    exact DriveTrain.applyDeadband_zero _ (by
      show (0 : ℝ) ≤ 0.02
      norm_num)
  ⟨hin, accumulators_decay_to_zero Real.sin Real.pi decayingDriveTrain _
    (by
      show Real.sin (Real.pi / 2 * 1) ≠ 0
      simp) hin⟩

/-! ## `m_negInertiaAccumulator`: bounded for a constant in `(0, 1]`, not bounded in general -/

theorem negInertia_step_le (gear : Bool) (t t1 a shaped : α) (ht : -1 ≤ t) (ht1 : t1 ≤ 1)
    (hpos : 0 < t1 → 0 < shaped) (hneg : t1 < 0 → shaped < 0) (hzero : t1 = 0 → shaped = 0)
    (hsmall : |t1| ≤ 1 / 3 → |shaped| ≤ 0.65) (h1 : -1 ≤ t1) (h2 : t ≤ 1) :
    a + (t1 - t) * negInertiaScalar gear shaped (t1 - t) - inertiaCeil gear t1
      ≤ a - inertiaCeil gear t + 1 := by
  unfold negInertiaScalar inertiaCeil
  cases gear
  · simp only [Bool.false_eq_true, if_false]
    rcases lt_trichotomy t1 0 with hlt | heq | hgt
    · have hs := hneg hlt
      rw [if_pos hlt.le]
      by_cases hd : 0 < t1 - t
      · have hprod : ¬ shaped * (t1 - t) > 0 := by
          have : shaped * (t1 - t) < 0 := mul_neg_of_neg_of_pos hs hd
          linarith
        rw [if_neg hprod, if_pos (by linarith : t ≤ 0)]
        split_ifs with hbig
        · have : ¬ |t1| ≤ 1 / 3 := fun h => absurd (hsmall h) (not_le.mpr hbig)
          rw [abs_of_neg hlt] at this
          push_neg at this
          linarith
        · linarith
      · rcases eq_or_lt_of_le (not_lt.mp hd) with hd0 | hd1
        · have htt : t1 = t := by linarith
          subst htt
          simp only [sub_self, zero_mul, add_zero]
          rw [if_pos hlt.le]
          linarith
        · have hprod : shaped * (t1 - t) > 0 := mul_pos_of_neg_of_neg hs hd1
          rw [if_pos hprod]
          split_ifs <;> linarith
    · subst heq
      have hs := hzero rfl
      subst hs
      simp only [zero_mul, gt_iff_lt, lt_self_iff_false, if_false, abs_zero, le_refl, if_true, mul_zero]
      have : ¬ (0:α) > 0.65 := by norm_num
      rw [if_neg this]
      split_ifs <;> linarith
    · have hs := hpos hgt
      rw [if_neg (not_le.mpr hgt)]
      by_cases hd : 0 < t1 - t
      · have hprod : shaped * (t1 - t) > 0 := mul_pos hs hd
        rw [if_pos hprod]
        split_ifs <;> linarith
      · rcases eq_or_lt_of_le (not_lt.mp hd) with hd0 | hd1
        · have htt : t1 = t := by linarith
          subst htt
          simp only [sub_self, zero_mul, add_zero]
          rw [if_neg (not_le.mpr hgt)]
          linarith
        · have hprod : ¬ shaped * (t1 - t) > 0 := by
            have : shaped * (t1 - t) < 0 := mul_neg_of_pos_of_neg hs hd1
            linarith
          rw [if_neg hprod, if_neg (by linarith : ¬ t ≤ 0)]
          split_ifs <;> linarith
  · simp only [if_true]
    linarith

theorem sin_shape_sign_and_size (k t : ℝ) (hk0 : 0 < k) (hk1 : k ≤ 1) (ht1 : -1 ≤ t)
    (ht2 : t ≤ 1) :
    0 < Real.sin (Real.pi / 2 * k) ∧
    (0 < t → 0 < Real.sin (Real.pi / 2 * k * t) / Real.sin (Real.pi / 2 * k)) ∧
    (t < 0 → Real.sin (Real.pi / 2 * k * t) / Real.sin (Real.pi / 2 * k) < 0) ∧
    (t = 0 → Real.sin (Real.pi / 2 * k * t) / Real.sin (Real.pi / 2 * k) = 0) ∧
    (|t| ≤ 1 / 3 → |Real.sin (Real.pi / 2 * k * t) / Real.sin (Real.pi / 2 * k)| ≤ 0.65) := by
  have hpi := Real.pi_pos
  have hc : 0 < Real.pi / 2 * k := by positivity
  have hc1 : Real.pi / 2 * k ≤ Real.pi / 2 := by nlinarith
  have hD : 0 < Real.sin (Real.pi / 2 * k) :=
    Real.sin_pos_of_pos_of_lt_pi hc (by linarith)
  refine ⟨hD, ?_, ?_, ?_, ?_⟩
  · intro h
    apply div_pos _ hD
    apply Real.sin_pos_of_pos_of_lt_pi (by positivity)
    nlinarith
  · intro h
    apply div_neg_of_neg_of_pos _ hD
    apply Real.sin_neg_of_neg_of_neg_pi_lt
    · exact mul_neg_of_pos_of_neg hc h
    · nlinarith
  · intro h
    subst h
    simp
  · intro h
    rw [abs_le] at h
    have hx0 : 0 < Real.pi / 2 * k / 3 := by positivity
    have hx6 : Real.pi / 2 * k / 3 ≤ Real.pi / 6 := by linarith
    have hsx : 0 < Real.sin (Real.pi / 2 * k / 3) :=
      Real.sin_pos_of_pos_of_lt_pi hx0 (by linarith)
    have hsx2 : Real.sin (Real.pi / 2 * k / 3) ≤ 1 / 2 := by
      rw [← Real.sin_pi_div_six]
      exact Real.sin_le_sin_of_le_of_le_pi_div_two (by linarith) (by linarith) hx6
    have h3 : Real.sin (Real.pi / 2 * k) =
        3 * Real.sin (Real.pi / 2 * k / 3) - 4 * Real.sin (Real.pi / 2 * k / 3) ^ 3 := by
      rw [← Real.sin_three_mul]
      congr 1
      ring
    have hy1 : Real.sin (Real.pi / 2 * k * t) ≤ Real.sin (Real.pi / 2 * k / 3) := by
      apply Real.sin_le_sin_of_le_of_le_pi_div_two
      · nlinarith
      · linarith
      · nlinarith
    have hy2 : -Real.sin (Real.pi / 2 * k / 3) ≤ Real.sin (Real.pi / 2 * k * t) := by
      rw [← Real.sin_neg]
      apply Real.sin_le_sin_of_le_of_le_pi_div_two
      · linarith
      · nlinarith
      · nlinarith
    have hbig : 2 * Real.sin (Real.pi / 2 * k / 3) ≤ Real.sin (Real.pi / 2 * k) := by
      rw [h3]
      nlinarith [mul_pos hsx hsx, mul_nonneg hsx.le (sub_nonneg.mpr hsx2)]
    rw [abs_div, abs_of_pos hD, div_le_iff₀ hD, abs_le]
    constructor <;> nlinarith

theorem sin_shape_of_abs_le_one (k t : ℝ) (hk0 : k ≠ 0) (hk1 : |k| ≤ 1) (ht1 : -1 ≤ t)
    (ht2 : t ≤ 1) :
    Real.sin (Real.pi / 2 * k) ≠ 0 ∧
    (0 < t → 0 < Real.sin (Real.pi / 2 * k * t) / Real.sin (Real.pi / 2 * k)) ∧
    (t < 0 → Real.sin (Real.pi / 2 * k * t) / Real.sin (Real.pi / 2 * k) < 0) ∧
    (t = 0 → Real.sin (Real.pi / 2 * k * t) / Real.sin (Real.pi / 2 * k) = 0) ∧
    (|t| ≤ 1 / 3 → |Real.sin (Real.pi / 2 * k * t) / Real.sin (Real.pi / 2 * k)| ≤ 0.65) := by
  rcases lt_or_gt_of_ne hk0 with hneg | hpos
  · have h := sin_shape_sign_and_size (-k) t (by linarith) (by
      rw [abs_of_neg hneg] at hk1
      exact hk1) ht1 ht2
    have e1 : Real.sin (Real.pi / 2 * k) = -Real.sin (Real.pi / 2 * -k) := by
      rw [← Real.sin_neg]
      congr 1
      ring
    have e2 : Real.sin (Real.pi / 2 * k * t) = -Real.sin (Real.pi / 2 * -k * t) := by
      rw [← Real.sin_neg]
      congr 1
      ring
    rw [e1, e2, neg_div_neg_eq]
    exact ⟨neg_ne_zero.mpr h.1.ne', h.2⟩
  · have h := sin_shape_sign_and_size k t hpos (by
      rw [abs_of_pos hpos] at hk1
      exact hk1) ht1 ht2
    exact ⟨h.1.ne', h.2⟩

theorem negInertiaScalar_neg (gear : Bool) (s d : α) :
    negInertiaScalar gear (-s) (-d) = negInertiaScalar gear s d := by
  unfold negInertiaScalar
  rw [neg_mul_neg, abs_neg]

theorem inertiaFloor_eq (gear : Bool) (t : α) : inertiaFloor gear t = -inertiaCeil gear (-t) := by
  unfold inertiaFloor inertiaCeil
  cases gear
  · simp only [Bool.false_eq_true, if_false, neg_nonpos]
    split_ifs <;> ring
  · simp only [if_true]
    ring

theorem negInertia_step_ge (gear : Bool) (t t1 a shaped : α) (ht : -1 ≤ t) (ht1 : t1 ≤ 1)
    (hpos : 0 < t1 → 0 < shaped) (hneg : t1 < 0 → shaped < 0) (hzero : t1 = 0 → shaped = 0)
    (hsmall : |t1| ≤ 1 / 3 → |shaped| ≤ 0.65) (h1 : -1 ≤ t1) (h2 : t ≤ 1) :
    a - inertiaFloor gear t - 1
      ≤ a + (t1 - t) * negInertiaScalar gear shaped (t1 - t) - inertiaFloor gear t1 := by
  have h := negInertia_step_le gear (-t) (-t1) (-a) (-shaped) (by linarith) (by linarith)
    (fun h => by have := hneg (by linarith); linarith)
    (fun h => by have := hpos (by linarith); linarith)
    (fun h => by have := hzero (by linarith); linarith)
    (fun h => by rw [abs_neg] at h ⊢; exact hsmall h) (by linarith) (by linarith)
  have e : -t1 - -t = -(t1 - t) := by ring
  rw [e, negInertiaScalar_neg] at h
  rw [inertiaFloor_eq gear t, inertiaFloor_eq gear t1]
  linarith

theorem decayAccumulator_sub_le (x h K : α) (h1 : x - h ≤ K + 1) (h2 : -h ≤ K) :
    decayAccumulator x - h ≤ K := by
  unfold decayAccumulator
  split_ifs <;> linarith

theorem le_decayAccumulator_sub (x h K : α) (h1 : -(K + 1) ≤ x - h) (h2 : -K ≤ -h) :
    -K ≤ decayAccumulator x - h := by
  unfold decayAccumulator
  split_ifs <;> linarith

theorem inertiaCeil_bounds (gear : Bool) (t : α) (h1 : -1 ≤ t) (h2 : t ≤ 1) :
    -5 ≤ inertiaCeil gear t ∧ inertiaCeil gear t ≤ 5 ∧
    -5 ≤ inertiaFloor gear t ∧ inertiaFloor gear t ≤ 5 := by
  unfold inertiaCeil inertiaFloor
  refine ⟨?_, ?_, ?_, ?_⟩ <;> split_ifs <;> linarith

theorem inertiaCeil_switch (g g1 : Bool) (t : α) (h1 : -1 ≤ t) (h2 : t ≤ 1) :
    inertiaCeil g t - inertiaCeil g1 t ≤ 2.5 ∧ inertiaFloor g1 t - inertiaFloor g t ≤ 2.5 := by
  unfold inertiaCeil inertiaFloor
  constructor <;> split_ifs <;> linarith

theorem GearBox.updateGear_shifter_cases (g : GearBox α) :
    g.updateGear.m_shifter = g.m_shifter ∨
      (g.m_shifter ≠ none ∧ g.updateGear.m_shifter = some g.m_targetGear) := by
  unfold GearBox.updateGear
  split
  · exact Or.inl rfl
  · rename_i s hs
    split_ifs
    · exact Or.inl rfl
    · exact Or.inl rfl
    · exact Or.inr ⟨by simp [hs], rfl⟩

theorem GearBox.setManual_shifter_cases (g : GearBox α) (v : α) :
    (g.setManual v).m_shifter = g.m_shifter ∨
      (g.m_shifter ≠ none ∧ (g.setManual v).m_shifter = some g.m_targetGear) := by
  rw [GearBox.setManual_eq]
  by_cases hh : g.m_havePID = true
  · rw [if_pos hh]
    exact GearBox.updateGear_shifter_cases _
  · rw [if_neg hh]
    exact GearBox.updateGear_shifter_cases _

theorem GearBox.setManual_aligned (g : GearBox α) (v : α) (h : g.aligned) :
    (g.setManual v).aligned ∧ (g.setManual v).getGear = g.getGear := by
  unfold GearBox.aligned at h ⊢
  rcases h with h | h
  · have := g.setManual_shifter_none v h
    exact ⟨Or.inl this, by unfold GearBox.getGear; rw [this, h]⟩
  · have : (g.setManual v).m_shifter = some g.m_targetGear := by
      rcases g.setManual_shifter_cases v with h1 | h1
      · rw [h1, h]
      · exact h1.2
    exact ⟨Or.inr (by rw [GearBox.setManual_targetGear]; exact this),
      by unfold GearBox.getGear; rw [this, h]⟩

theorem GearBox.setManual_getGear_of_not_aligned (g : GearBox α) (v : α)
    (h : ¬ (g.setManual v).aligned) : (g.setManual v).getGear = g.getGear := by
  rcases g.setManual_shifter_cases v with h1 | h1
  · unfold GearBox.getGear
    rw [h1]
  · exact absurd (Or.inr (by rw [GearBox.setManual_targetGear]; exact h1.2)) h

theorem DriveTrain.inertiaInv_drive (sinF : α → α) (M_PI : α) (dt : DriveTrain α)
    (throttle turn : α) (isQuickTurn : Bool) (hinv : dt.inertiaInv)
    (hd1 : dt.m_deadband < 1)
    (hD : sinF (M_PI / 2 * dt.m_settings.TURN_NON_LINEARITY) ≠ 0)
    (hshape : ∀ t : α, -1 ≤ t → t ≤ 1 →
      (0 < t → 0 < sinF (M_PI / 2 * dt.m_settings.TURN_NON_LINEARITY * t) /
        sinF (M_PI / 2 * dt.m_settings.TURN_NON_LINEARITY)) ∧
      (t < 0 → sinF (M_PI / 2 * dt.m_settings.TURN_NON_LINEARITY * t) /
        sinF (M_PI / 2 * dt.m_settings.TURN_NON_LINEARITY) < 0) ∧
      (t = 0 → sinF (M_PI / 2 * dt.m_settings.TURN_NON_LINEARITY * t) /
        sinF (M_PI / 2 * dt.m_settings.TURN_NON_LINEARITY) = 0) ∧
      (|t| ≤ 1 / 3 → |sinF (M_PI / 2 * dt.m_settings.TURN_NON_LINEARITY * t) /
        sinF (M_PI / 2 * dt.m_settings.TURN_NON_LINEARITY)| ≤ 0.65)) :
    ∃ dt1, dt.drive sinF M_PI throttle turn isQuickTurn = some dt1 ∧
      dt1.m_settings = dt.m_settings ∧ dt1.m_deadband = dt.m_deadband ∧ dt1.inertiaInv := by
  refine ⟨_, dt.drive_of_ne sinF M_PI throttle turn isQuickTurn hD _ rfl, rfl, rfl, ?_⟩
  obtain ⟨ho1, ho2, hU, hL, hP⟩ := hinv
  have hlim := limit_one_mem turn
  have ht := dt.applyDeadband_mem (limit turn 1) hd1 hlim.1 hlim.2
  obtain ⟨hs1, hs2, hs3, hs4⟩ := hshape _ ht.1 ht.2
  set t1 := dt.applyDeadband (limit turn 1) with ht1def
  set shaped := sinF (M_PI / 2 * dt.m_settings.TURN_NON_LINEARITY * t1) /
        sinF (M_PI / 2 * dt.m_settings.TURN_NON_LINEARITY) with hshdef
  have hle := negInertia_step_le dt.getGear dt.m_oldTurn t1 dt.m_negInertiaAccumulator shaped
    ho1 ht.2 hs1 hs2 hs3 hs4 ht.1 ho2
  have hge := negInertia_step_ge dt.getGear dt.m_oldTurn t1 dt.m_negInertiaAccumulator shaped
    ho1 ht.2 hs1 hs2 hs3 hs4 ht.1 ho2
  have hb := inertiaCeil_bounds dt.getGear t1 ht.1 ht.2
  obtain ⟨a1, ha1⟩ : ∃ a1, a1 = decayAccumulator (dt.m_negInertiaAccumulator +
      (t1 - dt.m_oldTurn) * negInertiaScalar dt.getGear shaped (t1 - dt.m_oldTurn)) := ⟨_, rfl⟩
  have hstep : ∀ K : α, 5 ≤ K →
      dt.m_negInertiaAccumulator - inertiaCeil dt.getGear dt.m_oldTurn ≤ K →
      -K ≤ dt.m_negInertiaAccumulator - inertiaFloor dt.getGear dt.m_oldTurn →
      a1 - inertiaCeil dt.getGear t1 ≤ K ∧ -K ≤ a1 - inertiaFloor dt.getGear t1 := by
    intro K hK h1 h2
    rw [ha1]
    exact ⟨decayAccumulator_sub_le _ _ K (by linarith) (by linarith),
      le_decayAccumulator_sub _ _ K (by linarith) (by linarith)⟩
  have hgear : (dt.mixShaped (dt.applyDeadband (limit throttle 1)) t1 shaped
      isQuickTurn).negInertiaAccumulator = a1 := by rw [ha1]; rfl
  have hold : (dt.mixShaped (dt.applyDeadband (limit throttle 1)) t1 shaped
      isQuickTurn).oldTurn = t1 := rfl
  generalize (dt.mixShaped (dt.applyDeadband (limit throttle 1)) t1 shaped isQuickTurn) = m
    at hgear hold ⊢
  show -1 ≤ m.oldTurn ∧ m.oldTurn ≤ 1 ∧
    m.negInertiaAccumulator - inertiaCeil (dt.m_leftGrbx.setManual m.leftPwm).getGear m.oldTurn
      ≤ 7.5 ∧
    -7.5 ≤ m.negInertiaAccumulator -
      inertiaFloor (dt.m_leftGrbx.setManual m.leftPwm).getGear m.oldTurn ∧
    (¬ (dt.m_leftGrbx.setManual m.leftPwm).aligned →
      m.negInertiaAccumulator -
        inertiaCeil (dt.m_leftGrbx.setManual m.leftPwm).getGear m.oldTurn ≤ 5 ∧
      -5 ≤ m.negInertiaAccumulator -
        inertiaFloor (dt.m_leftGrbx.setManual m.leftPwm).getGear m.oldTurn)
  rw [hgear, hold]
  have hsw := inertiaCeil_switch dt.getGear (dt.m_leftGrbx.setManual m.leftPwm).getGear t1
    ht.1 ht.2
  by_cases hal : dt.m_leftGrbx.aligned
  · obtain ⟨hal1, hg1⟩ := dt.m_leftGrbx.setManual_aligned m.leftPwm hal
    have h75 := hstep 7.5 (by norm_num) hU hL
    rw [hg1]
    exact ⟨ht.1, ht.2, h75.1, h75.2, fun h => absurd hal1 h⟩
  · have h5 := hstep 5 le_rfl (hP hal).1 (hP hal).2
    by_cases hal1 : (dt.m_leftGrbx.setManual m.leftPwm).aligned
    · refine ⟨ht.1, ht.2, by linarith, by linarith, fun h => absurd hal1 h⟩
    · have hg1 := dt.m_leftGrbx.setManual_getGear_of_not_aligned m.leftPwm hal1
      rw [hg1]
      exact ⟨ht.1, ht.2, by unfold DriveTrain.getGear at h5; linarith,
        by unfold DriveTrain.getGear at h5; linarith, fun _ => h5⟩

theorem DriveTrain.inertiaInv_bound (dt : DriveTrain α) (h : dt.inertiaInv) :
    |dt.m_negInertiaAccumulator| ≤ 12.5 := by
  obtain ⟨ho1, ho2, hU, hL, _⟩ := h
  have hb := inertiaCeil_bounds dt.getGear dt.m_oldTurn ho1 ho2
  rw [abs_le]
  constructor <;> linarith

theorem DriveTrain.inertiaInv_driveSeq (dt : DriveTrain ℝ) (inputs : List (ℝ × ℝ × Bool))
    (hinv : dt.inertiaInv) (hd1 : dt.m_deadband < 1)
    (hk0 : dt.m_settings.TURN_NON_LINEARITY ≠ 0) (hk1 : |dt.m_settings.TURN_NON_LINEARITY| ≤ 1) :
    ∃ dt1, dt.driveSeq Real.sin Real.pi inputs = some dt1 ∧ dt1.inertiaInv := by
  induction inputs generalizing dt with
  | nil => exact ⟨dt, rfl, hinv⟩
  | cons x rest ih =>
    obtain ⟨throttle, turn, q⟩ := x
    obtain ⟨dt1, hdr, hs, hdb, hinv1⟩ := dt.inertiaInv_drive Real.sin Real.pi throttle turn q
      hinv hd1 (sin_shape_of_abs_le_one _ 0 hk0 hk1 (by norm_num) (by norm_num)).1
      (fun t h1 h2 => (sin_shape_of_abs_le_one _ t hk0 hk1 h1 h2).2)
    obtain ⟨dt2, hd2, hinv2⟩ := ih dt1 hinv1 (by rw [hdb]; exact hd1) (by rw [hs]; exact hk0)
      (by rw [hs]; exact hk1)
    exact ⟨dt2, by simp only [DriveTrain.driveSeq, hdr, hd2], hinv2⟩

/-- C10, as the code has it: with the constant `B = 12.5`, starting from a state with previous
turn `0` and `m_negInertiaAccumulator = 0`, for any deadband below `1` (in particular in
`[0, 1)`), any non-zero turn non-linearity constant `k` with `|k| <= 1`, either gear (with or
without a pending shift) and every finite sequence of `drive()` calls with any inputs, the run
returns and `|m_negInertiaAccumulator| <= B` afterwards. -/
theorem negInertiaAccumulator_bounded_for_small_constant (dt : DriveTrain ℝ)
    (inputs : List (ℝ × ℝ × Bool))
    (h0 : dt.m_oldTurn = 0) (hn : dt.m_negInertiaAccumulator = 0) (hd1 : dt.m_deadband < 1)
    (hk0 : dt.m_settings.TURN_NON_LINEARITY ≠ 0) (hk1 : |dt.m_settings.TURN_NON_LINEARITY| ≤ 1) :
    ∃ dt1, dt.driveSeq Real.sin Real.pi inputs = some dt1 ∧
      |dt1.m_negInertiaAccumulator| ≤ 12.5 := by
  have hinv : dt.inertiaInv := by
    unfold DriveTrain.inertiaInv inertiaCeil inertiaFloor
    rw [h0, hn]
    norm_num
  obtain ⟨dt1, h1, h2⟩ := dt.inertiaInv_driveSeq inputs hinv hd1 hk0 hk1
  exact ⟨dt1, h1, dt1.inertiaInv_bound h2⟩

/-- Witness for `negInertiaAccumulator_bounded_for_small_constant`: the constructed DriveTrain
with `TURN_NON_LINEARITY = 1` and the calls `drive(0, 1, true)`, `drive(1, -1, false)`. -/
theorem negInertiaAccumulator_bounded_for_small_constant_witness :
    (DriveTrain.new (unitSettings : Settings ℝ) false).m_deadband < 1 ∧
    (DriveTrain.new (unitSettings : Settings ℝ) false).m_settings.TURN_NON_LINEARITY ≠ 0 ∧
    |(DriveTrain.new (unitSettings : Settings ℝ) false).m_settings.TURN_NON_LINEARITY| ≤ 1 ∧
    ∃ dt1, (DriveTrain.new (unitSettings : Settings ℝ) false).driveSeq Real.sin Real.pi
        [(0, 1, true), (1, -1, false)] = some dt1 ∧
      |dt1.m_negInertiaAccumulator| ≤ 12.5 :=
  ⟨by rw [DriveTrain.new_deadband]; norm_num,
    by simp [DriveTrain.new_settings, unitSettings],
    by simp [DriveTrain.new_settings, unitSettings],
    negInertiaAccumulator_bounded_for_small_constant (DriveTrain.new unitSettings false)
      [(0, 1, true), (1, -1, false)] rfl rfl (by rw [DriveTrain.new_deadband]; norm_num)
      (by simp [DriveTrain.new_settings, unitSettings])
      (by simp [DriveTrain.new_settings, unitSettings])⟩

theorem DriveTrain.drive_aligned (sinF : α → α) (M_PI : α) (dt : DriveTrain α)
    (throttle turn : α) (isQuickTurn : Bool)
    (hD : sinF (M_PI / 2 * dt.m_settings.TURN_NON_LINEARITY) ≠ 0) (hal : dt.m_leftGrbx.aligned) :
    ∃ dt1, dt.drive sinF M_PI throttle turn isQuickTurn = some dt1 ∧
      dt1.m_settings = dt.m_settings ∧ dt1.m_deadband = dt.m_deadband ∧
      dt1.m_leftGrbx.aligned ∧ dt1.getGear = dt.getGear ∧
      dt1.m_oldTurn = dt.applyDeadband (limit turn 1) ∧
      dt1.m_negInertiaAccumulator = decayAccumulator (dt.m_negInertiaAccumulator +
        (dt.applyDeadband (limit turn 1) - dt.m_oldTurn) * negInertiaScalar dt.getGear
          (sinF (M_PI / 2 * dt.m_settings.TURN_NON_LINEARITY * dt.applyDeadband (limit turn 1)) /
            sinF (M_PI / 2 * dt.m_settings.TURN_NON_LINEARITY))
          (dt.applyDeadband (limit turn 1) - dt.m_oldTurn)) := by
  refine ⟨_, dt.drive_of_ne sinF M_PI throttle turn isQuickTurn hD _ rfl, rfl, rfl, ?_, ?_,
    rfl, rfl⟩
  · exact (dt.m_leftGrbx.setManual_aligned _ hal).1
  · exact (dt.m_leftGrbx.setManual_aligned _ hal).2

theorem sin_five_quarter_turns : Real.sin (Real.pi / 2 * 5) = 1 := by
  rw [show Real.pi / 2 * 5 = Real.pi / 2 + 2 * Real.pi by ring, Real.sin_add_two_pi,
    Real.sin_pi_div_two]

theorem sin_three_quarter_turns : Real.sin (Real.pi / 2 * 5 * (3 / 5)) = -1 := by
  rw [show Real.pi / 2 * 5 * (3 / 5) = Real.pi / 2 + Real.pi by ring, Real.sin_add_pi,
    Real.sin_pi_div_two]

theorem sin_neg_five_quarter_turns : Real.sin (Real.pi / 2 * 5 * (-1)) = -1 := by
  rw [show Real.pi / 2 * 5 * (-1) = -(Real.pi / 2 * 5) by ring, Real.sin_neg,
    sin_five_quarter_turns]

theorem DriveTrain.oscillating_up (dt : DriveTrain ℝ) (h : dt.oscillating)
    (ho : dt.m_oldTurn < 3 / 5) :
    ∃ dt1, dt.drive Real.sin Real.pi 0 0.608 false = some dt1 ∧ dt1.oscillating ∧
      dt1.m_oldTurn = 3 / 5 ∧
      dt1.m_negInertiaAccumulator =
        decayAccumulator (dt.m_negInertiaAccumulator + (3 / 5 - dt.m_oldTurn) * 5) := by
  obtain ⟨hk, hd, hal, hg⟩ := h
  obtain ⟨dt1, h1, hs, hdb, hal1, hg1, hot, hacc⟩ :=
    dt.drive_aligned Real.sin Real.pi 0 0.608 false
      (by rw [hk, sin_five_quarter_turns]; norm_num) hal
  have ht : dt.applyDeadband (limit 0.608 1) = 3 / 5 := by
    unfold DriveTrain.applyDeadband limit
    rw [hd]
    norm_num [abs_of_pos]
  rw [ht] at hot hacc
  rw [hk, sin_five_quarter_turns, sin_three_quarter_turns, hg] at hacc
  refine ⟨dt1, h1, ⟨by rw [hs, hk], by rw [hdb, hd], hal1, by rw [hg1, hg]⟩, hot, ?_⟩
  rw [hacc]
  congr 2
  unfold negInertiaScalar
  have hp : ¬ (-1 / 1 * (3 / 5 - dt.m_oldTurn) > 0) := by
    rw [not_lt]
    linarith
  simp only [Bool.false_eq_true, if_false, if_neg hp]
  norm_num

theorem DriveTrain.oscillating_down (dt : DriveTrain ℝ) (h : dt.oscillating)
    (ho : -1 < dt.m_oldTurn) :
    ∃ dt1, dt.drive Real.sin Real.pi 0 (-1) false = some dt1 ∧ dt1.oscillating ∧
      dt1.m_oldTurn = -1 ∧
      dt1.m_negInertiaAccumulator =
        decayAccumulator (dt.m_negInertiaAccumulator + (-1 - dt.m_oldTurn) * 2.5) := by
  obtain ⟨hk, hd, hal, hg⟩ := h
  obtain ⟨dt1, h1, hs, hdb, hal1, hg1, hot, hacc⟩ :=
    dt.drive_aligned Real.sin Real.pi 0 (-1) false
      (by rw [hk, sin_five_quarter_turns]; norm_num) hal
  have ht : dt.applyDeadband (limit (-1) 1) = -1 := by
    unfold DriveTrain.applyDeadband limit
    rw [hd]
    norm_num [abs_of_pos]
  rw [ht] at hot hacc
  rw [hk, sin_five_quarter_turns, sin_neg_five_quarter_turns, hg] at hacc
  refine ⟨dt1, h1, ⟨by rw [hs, hk], by rw [hdb, hd], hal1, by rw [hg1, hg]⟩, hot, ?_⟩
  rw [hacc]
  congr 2
  unfold negInertiaScalar
  have hp : (-1 / 1 * (-1 - dt.m_oldTurn) > 0) := by
    linarith
  simp only [Bool.false_eq_true, if_false, if_pos hp]

theorem oscillation_succ (n : ℕ) :
    (oscillation (n + 1) : List (α × α × Bool)) =
      (0, 0.608, false) :: (0, -1, false) :: oscillation n :=
  rfl

theorem DriveTrain.driveSeq_cons_cons (sinF : α → α) (M_PI : α) (dt dt1 dt2 : DriveTrain α)
    (x1 x2 : α) (x3 : Bool) (y1 y2 : α) (y3 : Bool) (rest : List (α × α × Bool))
    (h1 : dt.drive sinF M_PI x1 x2 x3 = some dt1)
    (h2 : dt1.drive sinF M_PI y1 y2 y3 = some dt2) :
    dt.driveSeq sinF M_PI ((x1, x2, x3) :: (y1, y2, y3) :: rest) =
      dt2.driveSeq sinF M_PI rest := by
  simp only [DriveTrain.driveSeq, h1, h2]

theorem DriveTrain.oscillating_cycles (n : ℕ) (dt : DriveTrain ℝ) (h : dt.oscillating)
    (ho : dt.m_oldTurn = -1) (ha : -2 < dt.m_negInertiaAccumulator) :
    ∃ dt1, dt.driveSeq Real.sin Real.pi (oscillation n) = some dt1 ∧
      dt1.m_negInertiaAccumulator = dt.m_negInertiaAccumulator + 2 * n := by
  induction n generalizing dt with
  | zero => exact ⟨dt, rfl, by simp⟩
  | succ n ih =>
    obtain ⟨dt1, h1, hosc1, hot1, hacc1⟩ := dt.oscillating_up h (by rw [ho]; norm_num)
    obtain ⟨dt2, h2, hosc2, hot2, hacc2⟩ := dt1.oscillating_down hosc1 (by rw [hot1]; norm_num)
    have e1 : dt1.m_negInertiaAccumulator = dt.m_negInertiaAccumulator + 7 := by
      rw [hacc1, ho]
      unfold decayAccumulator
      rw [if_pos (by linarith)]
      ring
    have e2 : dt2.m_negInertiaAccumulator = dt.m_negInertiaAccumulator + 2 := by
      rw [hacc2, hot1, e1]
      unfold decayAccumulator
      rw [if_pos (by linarith)]
      ring
    obtain ⟨dt3, h3, hacc3⟩ := ih dt2 hosc2 hot2 (by rw [e2]; linarith)
    refine ⟨dt3, by
      rw [oscillation_succ, DriveTrain.driveSeq_cons_cons _ _ dt dt1 dt2 _ _ _ _ _ _ _ h1 h2, h3], ?_⟩
    rw [hacc3, e2]
    push_cast
    ring

theorem DriveTrain.new_oscillating :
    (DriveTrain.new (fiveSettings : Settings ℝ) false).oscillating := by
  refine ⟨rfl, rfl, Or.inr ?_, DriveTrain.new_getGear _ _⟩
  simp [DriveTrain.new, DriveTrain.reloadPID, GearBox.setPID, GearBox.setDistancePerPulse,
    GearBox.setReversed, GearBox.new]

/-- C10 fails as stated: for the constructed DriveTrain (deadband `0.02`, low gear) with the
non-zero constant `TURN_NON_LINEARITY = 5` no constant bounds `|m_negInertiaAccumulator|` over
all finite sequences of `drive()` calls; alternating `drive(0, 0.608, false)` and
`drive(0, -1, false)` adds `2` to the accumulator in every round. -/
theorem negInertiaAccumulator_not_bounded :
    ¬ ∃ B : ℝ, ∀ (inputs : List (ℝ × ℝ × Bool)) (dt1 : DriveTrain ℝ),
      (DriveTrain.new (fiveSettings : Settings ℝ) false).driveSeq Real.sin Real.pi inputs
        = some dt1 → |dt1.m_negInertiaAccumulator| ≤ B := by
  rintro ⟨B, hB⟩
  obtain ⟨dt1, h1, hosc1, hot1, hacc1⟩ :=
    (DriveTrain.new (fiveSettings : Settings ℝ) false).oscillating_up DriveTrain.new_oscillating
      (by rw [DriveTrain.new_oldTurn]; norm_num)
  obtain ⟨dt2, h2, hosc2, hot2, hacc2⟩ := dt1.oscillating_down hosc1 (by rw [hot1]; norm_num)
  have e2 : dt2.m_negInertiaAccumulator = -1 := by
    rw [hacc2, hot1, hacc1, DriveTrain.new_oldTurn, DriveTrain.new_negInertiaAccumulator]
    norm_num [decayAccumulator]
  obtain ⟨dt3, h3, hacc3⟩ := dt2.oscillating_cycles (⌈|B|⌉₊ + 1) hosc2 hot2
    (by rw [e2]; norm_num)
  have hseq : (DriveTrain.new (fiveSettings : Settings ℝ) false).driveSeq Real.sin Real.pi
      (oscillation (⌈|B|⌉₊ + 1 + 1)) = some dt3 := by
    rw [oscillation_succ, DriveTrain.driveSeq_cons_cons _ _ _ dt1 dt2 _ _ _ _ _ _ _ h1 h2, h3]
  have hle := hB _ dt3 hseq
  rw [hacc3, e2] at hle
  have hc := Nat.le_ceil |B|
  have hb := le_abs_self B
  have := (abs_le.mp hle).2
  push_cast at this
  linarith

/-! ## `GearBox` without a Sensor/Regulator pair, `setGear`, `getManual` -/

theorem GearBox.new_havePID_false (shifterChan encA encB motor1 motor2 motor3 : Nat)
    (solenoid : Bool) (h : encA = 0 ∨ encB = 0) :
    (GearBox.new shifterChan encA encB motor1 motor2 motor3 solenoid : GearBox α).m_havePID
      = false ∧
    (GearBox.new shifterChan encA encB motor1 motor2 motor3 solenoid : GearBox α).m_pid
      = none := by
  rcases h with h | h <;> simp [GearBox.new, h]

/-- C14: for every GearBox without a Sensor/Regulator pair (`m_havePID` false, as the
constructor leaves it when an encoder channel is `0`), `setSetpoint`, `setPID` and
`resetEncoder` return the GearBox unchanged in every member (motor commands, shift actuator,
target gear, polarity), and `getDistance`, `getRate` and `getSetpoint` return `0`. -/
theorem unregulated_gearbox_operations_are_noops (g : GearBox α) (h : g.m_havePID = false)
    (s p i d : α) :
    g.setSetpoint s = g ∧ g.setPID p i d = g ∧ g.resetEncoder = g ∧
    g.getDistance = some 0 ∧ g.getRate = some 0 ∧ g.getSetpoint = some 0 := by
  simp [GearBox.setSetpoint, GearBox.setPID, GearBox.resetEncoder, GearBox.getDistance,
    GearBox.getRate, GearBox.getSetpoint, h]

/-- Witness for `unregulated_gearbox_operations_are_noops`: the gearbox constructed from
channels `6 0 0 1 2 3`. -/
theorem unregulated_gearbox_operations_are_noops_witness :
    (unregulatedGearBox : GearBox ℚ).m_havePID = false ∧
    ((unregulatedGearBox : GearBox ℚ).setSetpoint 3 = unregulatedGearBox ∧
      (unregulatedGearBox : GearBox ℚ).setPID 1 2 3 = unregulatedGearBox ∧
      (unregulatedGearBox : GearBox ℚ).resetEncoder = unregulatedGearBox ∧
      (unregulatedGearBox : GearBox ℚ).getDistance = some 0 ∧
      (unregulatedGearBox : GearBox ℚ).getRate = some 0 ∧
      (unregulatedGearBox : GearBox ℚ).getSetpoint = some 0) :=
  ⟨rfl, unregulated_gearbox_operations_are_noops unregulatedGearBox rfl 3 1 2 3⟩

/-- C15: for every GearBox with a shift actuator, `setGear(g)` changes the stored target gear
to `g` and nothing else: the shift actuator's state and every motor command are as before, so
`getGear()`, which returns the actuator's state, returns the same value before and after. -/
theorem setGear_only_records_target {β : Type} (g : GearBox β) (s gear : Bool)
    (hs : g.m_shifter = some s) :
    g.setGear gear = { g with m_targetGear := gear } ∧
    (g.setGear gear).m_targetGear = gear ∧
    (g.setGear gear).m_shifter = some s ∧
    (g.setGear gear).m_motors = g.m_motors ∧
    (g.setGear gear).getGear = g.getGear ∧ g.getGear = s := by
  have h : g.setGear gear = { g with m_targetGear := gear } := by
    simp [GearBox.setGear, hs]
  rw [h]
  simp [GearBox.getGear, hs]

/-- Witness for `setGear_only_records_target`: the loaded gearbox (shift actuator in low gear,
target high) and `setGear(false)`. -/
theorem setGear_only_records_target_witness :
    (loadedGearBox : GearBox ℚ).m_shifter = some false ∧
    ((loadedGearBox : GearBox ℚ).setGear false =
        { (loadedGearBox : GearBox ℚ) with m_targetGear := false } ∧
      ((loadedGearBox : GearBox ℚ).setGear false).m_targetGear = false ∧
      ((loadedGearBox : GearBox ℚ).setGear false).m_shifter = some false ∧
      ((loadedGearBox : GearBox ℚ).setGear false).m_motors
        = (loadedGearBox : GearBox ℚ).m_motors ∧
      ((loadedGearBox : GearBox ℚ).setGear false).getGear
        = (loadedGearBox : GearBox ℚ).getGear ∧
      (loadedGearBox : GearBox ℚ).getGear = false) :=
  ⟨rfl, setGear_only_records_target loadedGearBox false false rfl⟩

/-- C16, the code at a gearbox constructed with encoder channels `0 0`: it has no
Sensor/Regulator pair, `m_pid` is `NULL`, and both `onTarget()` and `resetPID()` dereference
`m_pid` and have no result. -/
theorem onTarget_and_resetPID_dereference_null :
    (unregulatedGearBox : GearBox ℚ).m_havePID = false ∧
    (unregulatedGearBox : GearBox ℚ).m_pid = none ∧
    (unregulatedGearBox : GearBox ℚ).onTarget = none ∧
    (unregulatedGearBox : GearBox ℚ).resetPID = none :=
  ⟨rfl, rfl, rfl, rfl⟩

theorem GearBox.setManual_motors (g : GearBox α) (v : α) :
    (g.setManual v).m_motors = g.m_motors.map fun _ => if !g.m_isReversed then v else -v := by
  rw [GearBox.setManual_eq]
  unfold GearBox.PIDWrite
  rw [GearBox.updateGear_motors]
  by_cases hh : g.m_havePID = true
  · rw [if_pos hh]
  · rw [if_neg hh]

theorem GearBox.setManual_isReversed (g : GearBox α) (v : α) :
    (g.setManual v).m_isReversed = g.m_isReversed := by
  rw [GearBox.setManual_eq]
  unfold GearBox.PIDWrite
  rw [GearBox.updateGear_isReversed]
  by_cases hh : g.m_havePID = true
  · rw [if_pos hh]
  · rw [if_neg hh]

/-- C20: for every GearBox with at least one motor, reversed or not, `getManual()` called right
after `setManual(v)` returns `v`. -/
theorem getManual_after_setManual (g : GearBox α) (v : α) (hm : g.m_motors ≠ []) :
    (g.setManual v).getManual = some v := by
  unfold GearBox.getManual
  rw [GearBox.setManual_isReversed, GearBox.setManual_motors]
  cases hl : g.m_motors with
  | nil => exact absurd hl hm
  | cons a l =>
    cases hr : g.m_isReversed <;> simp

/-- Witness for `getManual_after_setManual`: the loaded gearbox (one motor), not reversed and
reversed, with `v = 0.3`. -/
theorem getManual_after_setManual_witness :
    (loadedGearBox : GearBox ℚ).m_motors ≠ [] ∧
    ((loadedGearBox : GearBox ℚ).setManual 0.3).getManual = some 0.3 ∧
    (((loadedGearBox : GearBox ℚ).setReversed true).setManual 0.3).getManual = some 0.3 :=
  ⟨by simp [loadedGearBox], getManual_after_setManual loadedGearBox 0.3 (by simp [loadedGearBox]),
    getManual_after_setManual (loadedGearBox.setReversed true) 0.3
      (by simp [loadedGearBox, GearBox.setReversed])⟩

/-! ## `m_quickStopAccumulator` stays within `5` -/

theorem abs_decayAccumulator_le_abs (v : α) : |decayAccumulator v| ≤ |v| := by
  unfold decayAccumulator
  split_ifs with h1 h2
  · rw [abs_of_pos (by linarith), abs_of_pos (by linarith)]
    linarith
  · rw [abs_of_neg (by linarith), abs_of_neg (by linarith)]
    linarith
  · simp

theorem DriveTrain.mixShaped_quickStop_le (dt : DriveTrain α) (throttle turnIn shaped : α)
    (isQuickTurn : Bool) (h : |dt.m_quickStopAccumulator| ≤ 5) :
    |(dt.mixShaped throttle turnIn shaped isQuickTurn).quickStopAccumulator| ≤ 5 := by
  simp only [DriveTrain.mixShaped]
  split_ifs with hq hl
  · have hb := limit_one_mem (shaped + (dt.m_negInertiaAccumulator +
      (turnIn - dt.m_oldTurn) * negInertiaScalar dt.getGear shaped (turnIn - dt.m_oldTurn)))
    rw [abs_le] at h ⊢
    constructor <;> nlinarith [hb.1, hb.2, h.1, h.2]
  · exact h
  · exact le_trans (abs_decayAccumulator_le_abs _) h

theorem DriveTrain.drive_quickStop_le (sinF : α → α) (M_PI : α) (dt : DriveTrain α)
    (throttle turn : α) (isQuickTurn : Bool)
    (hk : sinF (M_PI / 2 * dt.m_settings.TURN_NON_LINEARITY) ≠ 0)
    (h : |dt.m_quickStopAccumulator| ≤ 5) :
    ∃ dt1, dt.drive sinF M_PI throttle turn isQuickTurn = some dt1 ∧
      dt1.m_settings = dt.m_settings ∧ |dt1.m_quickStopAccumulator| ≤ 5 :=
  ⟨_, dt.drive_of_ne sinF M_PI throttle turn isQuickTurn hk _ rfl, rfl,
    dt.mixShaped_quickStop_le _ _ _ isQuickTurn h⟩

theorem DriveTrain.quickStop_le_driveSeq (sinF : α → α) (M_PI : α) (dt : DriveTrain α)
    (inputs : List (α × α × Bool))
    (hk : sinF (M_PI / 2 * dt.m_settings.TURN_NON_LINEARITY) ≠ 0)
    (h : |dt.m_quickStopAccumulator| ≤ 5) :
    ∃ dt1, dt.driveSeq sinF M_PI inputs = some dt1 ∧ |dt1.m_quickStopAccumulator| ≤ 5 := by
  induction inputs generalizing dt with
  | nil => exact ⟨dt, rfl, h⟩
  | cons x rest ih =>
    obtain ⟨throttle, turn, q⟩ := x
    obtain ⟨dt1, hd, hs, h1⟩ := dt.drive_quickStop_le sinF M_PI throttle turn q hk h
    obtain ⟨dt2, h2, hb⟩ := ih dt1 (by rw [hs]; exact hk) h1
    exact ⟨dt2, by simp only [DriveTrain.driveSeq, hd, h2], hb⟩

/-- The quick-stop bound with a defined turn shaping: starting from a state with
`m_quickStopAccumulator = 0` (the constructed state), for a shaping divisor `sin(pi/2 * k)` that
is not zero every finite sequence of `drive()` calls with any inputs returns and ends in a state
with `|m_quickStopAccumulator| <= 5`. -/
theorem quickStopAccumulator_le_five (sinF : α → α) (M_PI : α) (dt : DriveTrain α)
    (inputs : List (α × α × Bool))
    (hk : sinF (M_PI / 2 * dt.m_settings.TURN_NON_LINEARITY) ≠ 0)
    (h0 : dt.m_quickStopAccumulator = 0) :
    ∃ dt1, dt.driveSeq sinF M_PI inputs = some dt1 ∧ |dt1.m_quickStopAccumulator| ≤ 5 :=
  dt.quickStop_le_driveSeq sinF M_PI inputs hk (by rw [h0]; simp)

/-- An instance of `quickStopAccumulator_le_five`: the constructed DriveTrain with
`TURN_NON_LINEARITY = 1` and two calls `drive(0, 1, true)`. -/
theorem quickStopAccumulator_le_five_witness :
    Real.sin (Real.pi / 2 *
      (DriveTrain.new (unitSettings : Settings ℝ) false).m_settings.TURN_NON_LINEARITY) ≠ 0 ∧
    (DriveTrain.new (unitSettings : Settings ℝ) false).m_quickStopAccumulator = 0 ∧
    ∃ dt1, (DriveTrain.new (unitSettings : Settings ℝ) false).driveSeq Real.sin Real.pi
        [(0, 1, true), (0, 1, true)] = some dt1 ∧ |dt1.m_quickStopAccumulator| ≤ 5 :=
  ⟨by simp [DriveTrain.new_settings, unitSettings], rfl,
    quickStopAccumulator_le_five Real.sin Real.pi (DriveTrain.new unitSettings false)
      [(0, 1, true), (0, 1, true)] (by simp [DriveTrain.new_settings, unitSettings]) rfl⟩

/-! ## `applyDeadband` -/

/-- C12: for every deadband `d` in `(0, 1)`, `applyDeadband(x) = 0` for every `x` with
`|x| <= d`, `applyDeadband(1) = 1` and `applyDeadband(-1) = -1`. -/
theorem applyDeadband_zero_inside_and_unit_ends (dt : DriveTrain α) (_hd0 : 0 < dt.m_deadband)
    (hd1 : dt.m_deadband < 1) :
    (∀ x, |x| ≤ dt.m_deadband → dt.applyDeadband x = 0) ∧
    dt.applyDeadband 1 = 1 ∧ dt.applyDeadband (-1) = -1 := by
  have hne : 1 - dt.m_deadband ≠ 0 := by linarith
  refine ⟨?_, ?_, ?_⟩
  · intro x hx
    unfold DriveTrain.applyDeadband
    rw [if_neg (not_lt.mpr hx)]
  · unfold DriveTrain.applyDeadband
    rw [abs_one, if_pos hd1, if_pos one_pos, div_self hne]
  · unfold DriveTrain.applyDeadband
    rw [abs_neg, abs_one, if_pos hd1, if_neg (by norm_num)]
    rw [div_eq_iff hne]
    ring

/-- Witness for `applyDeadband_zero_inside_and_unit_ends`: the constructed DriveTrain, whose
deadband is `0.02`. -/
theorem applyDeadband_zero_inside_and_unit_ends_witness :
    0 < (DriveTrain.new (unitSettings : Settings ℚ) false).m_deadband ∧
    (DriveTrain.new (unitSettings : Settings ℚ) false).m_deadband < 1 ∧
    ((∀ x, |x| ≤ (DriveTrain.new (unitSettings : Settings ℚ) false).m_deadband →
        (DriveTrain.new (unitSettings : Settings ℚ) false).applyDeadband x = 0) ∧
      (DriveTrain.new (unitSettings : Settings ℚ) false).applyDeadband 1 = 1 ∧
      (DriveTrain.new (unitSettings : Settings ℚ) false).applyDeadband (-1) = -1) :=
  ⟨by rw [DriveTrain.new_deadband]; norm_num, by rw [DriveTrain.new_deadband]; norm_num,
    applyDeadband_zero_inside_and_unit_ends (DriveTrain.new unitSettings false)
      (by rw [DriveTrain.new_deadband]; norm_num) (by rw [DriveTrain.new_deadband]; norm_num)⟩

/-- C18: for every deadband `d` in `[0, 1)` and every `x`, `applyDeadband(x)` is the value of
the spec's formula, `0` if `|x| <= d` and `sign(x) * (|x| - d) / (1 - d)` otherwise; with
`d = 0` it is the identity. -/
theorem applyDeadband_eq_formula (dt : DriveTrain α) (x : α) (hd0 : 0 ≤ dt.m_deadband)
    (_hd1 : dt.m_deadband < 1) :
    dt.applyDeadband x = deadbandFormula dt.m_deadband x ∧
    (dt.m_deadband = 0 → dt.applyDeadband x = x) := by
  have key : dt.applyDeadband x = deadbandFormula dt.m_deadband x := by
    unfold DriveTrain.applyDeadband deadbandFormula
    by_cases h : |x| ≤ dt.m_deadband
    · rw [if_neg (not_lt.mpr h), if_pos h]
    · rw [if_pos (not_le.mp h), if_neg h]
      have hx : x ≠ 0 := by
        rintro rfl
        simp at h
        linarith
      rcases lt_or_gt_of_ne hx with hneg | hpos
      · rw [if_neg (not_lt.mpr hneg.le), sign_neg hneg, abs_of_neg hneg]
        simp only [SignType.coe_neg_one]
        ring
      · rw [if_pos hpos, sign_pos hpos, abs_of_pos hpos]
        simp only [SignType.coe_one]
        ring
  refine ⟨key, fun h0 => ?_⟩
  unfold DriveTrain.applyDeadband
  rw [h0]
  by_cases hx : |x| > 0
  · rw [if_pos hx]
    split_ifs <;> simp
  · rw [if_neg hx]
    have := abs_nonneg x
    have h' : |x| = 0 := le_antisymm (not_lt.mp hx) this
    exact (abs_eq_zero.mp h').symm

/-- Witness for `applyDeadband_eq_formula`: the constructed DriveTrain (deadband `0.02`) and
`x = 0.5`. -/
theorem applyDeadband_eq_formula_witness :
    0 ≤ (DriveTrain.new (unitSettings : Settings ℚ) false).m_deadband ∧
    (DriveTrain.new (unitSettings : Settings ℚ) false).m_deadband < 1 ∧
    ((DriveTrain.new (unitSettings : Settings ℚ) false).applyDeadband 0.5 =
        deadbandFormula (DriveTrain.new (unitSettings : Settings ℚ) false).m_deadband 0.5 ∧
      ((DriveTrain.new (unitSettings : Settings ℚ) false).m_deadband = 0 →
        (DriveTrain.new (unitSettings : Settings ℚ) false).applyDeadband 0.5 = 0.5)) :=
  ⟨by rw [DriveTrain.new_deadband]; norm_num, by rw [DriveTrain.new_deadband]; norm_num,
    applyDeadband_eq_formula (DriveTrain.new unitSettings false) 0.5
      (by rw [DriveTrain.new_deadband]; norm_num) (by rw [DriveTrain.new_deadband]; norm_num)⟩

/-! ## The divisor of the turn shaping -/

/-- C13, the code for a configuration file without the key `TURN_NON_LINEARITY`: the constant
reads as `0`, nothing rejects it, the divisor `sin(pi/2 * 0)` of the turn shaping is `0`, and
every call of `drive()` divides by it and has no result. -/
theorem drive_divides_by_zero_for_missing_constant (solenoid : Bool) (throttle turn : ℝ)
    (isQuickTurn : Bool) :
    (DriveTrain.new (emptySettings : Settings ℝ) solenoid).m_settings.TURN_NON_LINEARITY = 0 ∧
    Real.sin (Real.pi / 2 *
      (DriveTrain.new (emptySettings : Settings ℝ) solenoid).m_settings.TURN_NON_LINEARITY) = 0 ∧
    (DriveTrain.new (emptySettings : Settings ℝ) solenoid).drive Real.sin Real.pi throttle turn
      isQuickTurn = none := by
  refine ⟨rfl, ?_, ?_⟩
  · simp [DriveTrain.new_settings, emptySettings]
  · simp [DriveTrain.drive, DriveTrain.mix, shapeTurn, DriveTrain.new_settings, emptySettings]

/-- C8, the code for a configuration file without the key `TURN_NON_LINEARITY`: the constructed
DriveTrain is in the initial steering state (previous turn 0, both accumulators 0) with deadband
`0.02`, the turn shaping of `drive(0.5, 0.0, false)` is `sin(0) / sin(0)` and has no value, and
so the call has no value to pass to either side. -/
theorem drive_straight_undefined_for_missing_constant :
    (DriveTrain.new (emptySettings : Settings ℝ) false).m_oldTurn = 0 ∧
    (DriveTrain.new (emptySettings : Settings ℝ) false).m_negInertiaAccumulator = 0 ∧
    (DriveTrain.new (emptySettings : Settings ℝ) false).m_quickStopAccumulator = 0 ∧
    (DriveTrain.new (emptySettings : Settings ℝ) false).m_deadband = 0.02 ∧
    shapeTurn Real.sin Real.pi
      (DriveTrain.new (emptySettings : Settings ℝ) false).m_settings.TURN_NON_LINEARITY
      ((DriveTrain.new (emptySettings : Settings ℝ) false).applyDeadband (limit 0 1)) = none ∧
    (DriveTrain.new (emptySettings : Settings ℝ) false).mix Real.sin Real.pi 0.5 0 false = none ∧
    (DriveTrain.new (emptySettings : Settings ℝ) false).drive Real.sin Real.pi 0.5 0 false
      = none := by
  refine ⟨rfl, rfl, rfl, rfl, ?_, ?_, ?_⟩
  · simp [shapeTurn, DriveTrain.new_settings, emptySettings]
  · simp [DriveTrain.mix, shapeTurn, DriveTrain.new_settings, emptySettings]
  · simp [DriveTrain.drive, DriveTrain.mix, shapeTurn, DriveTrain.new_settings, emptySettings]

/-- C11, the code for a configuration file without the key `TURN_NON_LINEARITY`: the constructed
DriveTrain has `m_quickStopAccumulator = 0`, and the single call `drive(0, 1, true)`, whose
quick-turn branch stores `0.9 * m_quickStopAccumulator + 0.1 * limit(turn, 1) * 5` with `turn`
computed from `sin(0) / sin(0)`, has no value for the accumulator: the run has no result. -/
theorem quickStopAccumulator_undefined_for_missing_constant :
    (DriveTrain.new (emptySettings : Settings ℝ) false).m_quickStopAccumulator = 0 ∧
    (DriveTrain.new (emptySettings : Settings ℝ) false).mix Real.sin Real.pi 0 1 true = none ∧
    (DriveTrain.new (emptySettings : Settings ℝ) false).driveSeq Real.sin Real.pi
      [(0, 1, true)] = none := by
  refine ⟨rfl, ?_, ?_⟩
  · simp [DriveTrain.mix, shapeTurn, DriveTrain.new_settings, emptySettings]
  · simp [DriveTrain.driveSeq, DriveTrain.drive, DriveTrain.mix, shapeTurn,
      DriveTrain.new_settings, emptySettings]

/-! ## The overflow rebalancing under quick turn -/

theorem limitPwm_quickTurn_diff (l r : α) :
    (limitPwm true l r).2 - (limitPwm true l r).1 = r - l := by
  unfold limitPwm
  simp only [if_true]
  split_ifs <;> ring

/-- C17: with quick turn active (and a shaping divisor that is not zero) `drive()` returns, and
the two values it passes to `setManual` satisfy `rightPwm - leftPwm = 2 * angularPower`; the
limiting chain maps every pre-rebalance pair `(throttle - a, throttle + a)` to a pair whose
difference is `2 * a`, whichever branch clips. -/
theorem quick_turn_rebalance_keeps_difference (sinF : α → α) (M_PI : α) (dt : DriveTrain α)
    (throttle turn : α)
    (hk : sinF (M_PI / 2 * dt.m_settings.TURN_NON_LINEARITY) ≠ 0) :
    (∃ m dt1, dt.mix sinF M_PI throttle turn true = some m ∧
      dt.drive sinF M_PI throttle turn true = some dt1 ∧
      dt1.m_leftGrbx = dt.m_leftGrbx.setManual m.leftPwm ∧
      dt1.m_rightGrbx = dt.m_rightGrbx.setManual m.rightPwm ∧
      m.rightPwm - m.leftPwm = 2 * m.angularPower) ∧
    ∀ t a : α, (limitPwm true (t - a) (t + a)).2 - (limitPwm true (t - a) (t + a)).1 = 2 * a := by
  refine ⟨⟨_, _, dt.mix_of_ne sinF M_PI throttle turn true hk,
    dt.drive_of_ne sinF M_PI throttle turn true hk _ rfl, rfl, rfl, ?_⟩, ?_⟩
  · simp only [DriveTrain.mixShaped, limitPwm_quickTurn_diff, if_true]
    ring
  · intro t a
    rw [limitPwm_quickTurn_diff]
    ring

/-- Witness for `quick_turn_rebalance_keeps_difference`: the constructed DriveTrain with
`TURN_NON_LINEARITY = 1` and `drive(0, 1, true)`, where the right side is clipped. -/
theorem quick_turn_rebalance_keeps_difference_witness :
    Real.sin (Real.pi / 2 *
      (DriveTrain.new (unitSettings : Settings ℝ) false).m_settings.TURN_NON_LINEARITY) ≠ 0 ∧
    ((∃ m dt1, (DriveTrain.new (unitSettings : Settings ℝ) false).mix Real.sin Real.pi 0 1 true
          = some m ∧
        (DriveTrain.new (unitSettings : Settings ℝ) false).drive Real.sin Real.pi 0 1 true
          = some dt1 ∧
        dt1.m_leftGrbx =
          (DriveTrain.new (unitSettings : Settings ℝ) false).m_leftGrbx.setManual m.leftPwm ∧
        dt1.m_rightGrbx =
          (DriveTrain.new (unitSettings : Settings ℝ) false).m_rightGrbx.setManual m.rightPwm ∧
        m.rightPwm - m.leftPwm = 2 * m.angularPower) ∧
      ∀ t a : ℝ,
        (limitPwm true (t - a) (t + a)).2 - (limitPwm true (t - a) (t + a)).1 = 2 * a) :=
  ⟨by simp [DriveTrain.new_settings, unitSettings],
    quick_turn_rebalance_keeps_difference Real.sin Real.pi (DriveTrain.new unitSettings false)
      0 1 (by simp [DriveTrain.new_settings, unitSettings])⟩

/-! ## Mirror symmetry of the steering computation -/

theorem limit_one_neg (x : α) : limit (-x) 1 = -limit x 1 := by
  unfold limit
  split_ifs <;> linarith

theorem DriveTrain.applyDeadband_neg (dt : DriveTrain α) (x : α) (hd0 : 0 ≤ dt.m_deadband) :
    dt.applyDeadband (-x) = -dt.applyDeadband x := by
  unfold DriveTrain.applyDeadband
  rw [abs_neg]
  by_cases h : |x| > dt.m_deadband
  · rw [if_pos h, if_pos h]
    have hx : x ≠ 0 := by
      rintro rfl
      rw [abs_zero] at h
      linarith
    rcases lt_or_gt_of_ne hx with hneg | hpos
    · rw [if_pos (by linarith : -x > 0), if_neg (not_lt.mpr hneg.le)]
      ring
    · rw [if_neg (by linarith : ¬ -x > 0), if_pos hpos]
      ring
  · rw [if_neg h, if_neg h, neg_zero]

theorem decayAccumulator_neg (a : α) : decayAccumulator (-a) = -decayAccumulator a := by
  unfold decayAccumulator
  split_ifs <;> linarith

theorem limitPwm_swap (q : Bool) (l r : α) (h1 : ¬ (1 < l ∧ 1 < r))
    (h2 : ¬ (l < -1 ∧ r < -1)) :
    limitPwm q r l = ((limitPwm q l r).2, (limitPwm q l r).1) := by
  unfold limitPwm
  by_cases a1 : l > 1
  · have b1 : ¬ r > 1 := fun hr => h1 ⟨a1, hr⟩
    have c1 : ¬ l < -1 := by linarith
    simp only [if_pos a1, if_neg b1]
  · by_cases b1 : r > 1
    · simp only [if_neg a1, if_pos b1]
    · by_cases c1 : l < -1
      · have d1 : ¬ r < -1 := fun hr => h2 ⟨c1, hr⟩
        simp only [if_neg a1, if_neg b1, if_pos c1, if_neg d1]
      · by_cases d1 : r < -1
        · simp only [if_neg a1, if_neg b1, if_neg c1, if_pos d1]
        · simp only [if_neg a1, if_neg b1, if_neg c1, if_neg d1]

theorem DriveTrain.mixShaped_mirror (dt dt2 : DriveTrain α) (throttle turnIn shaped : α)
    (isQuickTurn : Bool) (hsens : dt2.m_sensitivity = dt.m_sensitivity)
    (hgear : dt2.getGear = dt.getGear) (hot : dt2.m_oldTurn = -dt.m_oldTurn)
    (hna : dt2.m_negInertiaAccumulator = -dt.m_negInertiaAccumulator)
    (hqs : dt2.m_quickStopAccumulator = -dt.m_quickStopAccumulator)
    (ht1 : -1 ≤ throttle) (ht2 : throttle ≤ 1) :
    dt2.mixShaped throttle (-turnIn) (-shaped) isQuickTurn =
      (dt.mixShaped throttle turnIn shaped isQuickTurn).mirror := by
  have e1 : -turnIn - -dt.m_oldTurn = -(turnIn - dt.m_oldTurn) := by ring
  have e2 : ∀ s : α, -shaped + (-dt.m_negInertiaAccumulator + -(turnIn - dt.m_oldTurn) * s) =
      -(shaped + (dt.m_negInertiaAccumulator + (turnIn - dt.m_oldTurn) * s)) := fun s => by ring
  have e3 : ∀ s : α, -dt.m_negInertiaAccumulator + -(turnIn - dt.m_oldTurn) * s =
      -(dt.m_negInertiaAccumulator + (turnIn - dt.m_oldTurn) * s) := fun s => by ring
  obtain ⟨ap, hap⟩ : ∃ ap, ap = (dt.mixShaped throttle turnIn shaped isQuickTurn).angularPower :=
    ⟨_, rfl⟩
  have hap2 : (dt2.mixShaped throttle (-turnIn) (-shaped) isQuickTurn).angularPower = -ap := by
    rw [hap]
    simp only [DriveTrain.mixShaped, hsens, hgear, hot, hna, hqs, e1, negInertiaScalar_neg, e2]
    split_ifs <;> ring
  have hsw := limitPwm_swap isQuickTurn (throttle - ap) (throttle + ap)
    (fun h => by linarith [h.1, h.2]) (fun h => by linarith [h.1, h.2])
  have hl : (dt.mixShaped throttle turnIn shaped isQuickTurn).leftPwm =
      (limitPwm isQuickTurn (throttle - ap) (throttle + ap)).1 := by rw [hap]; rfl
  have hr : (dt.mixShaped throttle turnIn shaped isQuickTurn).rightPwm =
      (limitPwm isQuickTurn (throttle - ap) (throttle + ap)).2 := by rw [hap]; rfl
  have hl2 : (dt2.mixShaped throttle (-turnIn) (-shaped) isQuickTurn).leftPwm =
      (limitPwm isQuickTurn (throttle + ap) (throttle - ap)).1 := by
    have : (dt2.mixShaped throttle (-turnIn) (-shaped) isQuickTurn).leftPwm =
      (limitPwm isQuickTurn
        (throttle - (dt2.mixShaped throttle (-turnIn) (-shaped) isQuickTurn).angularPower)
        (throttle + (dt2.mixShaped throttle (-turnIn) (-shaped) isQuickTurn).angularPower)).1 :=
      rfl
    rw [this, hap2, sub_neg_eq_add, ← sub_eq_add_neg]
  have hr2 : (dt2.mixShaped throttle (-turnIn) (-shaped) isQuickTurn).rightPwm =
      (limitPwm isQuickTurn (throttle + ap) (throttle - ap)).2 := by
    have : (dt2.mixShaped throttle (-turnIn) (-shaped) isQuickTurn).rightPwm =
      (limitPwm isQuickTurn
        (throttle - (dt2.mixShaped throttle (-turnIn) (-shaped) isQuickTurn).angularPower)
        (throttle + (dt2.mixShaped throttle (-turnIn) (-shaped) isQuickTurn).angularPower)).2 :=
      rfl
    rw [this, hap2, sub_neg_eq_add, ← sub_eq_add_neg]
  have hold : (dt2.mixShaped throttle (-turnIn) (-shaped) isQuickTurn).oldTurn = -turnIn := rfl
  have hnacc : (dt2.mixShaped throttle (-turnIn) (-shaped) isQuickTurn).negInertiaAccumulator =
      -(dt.mixShaped throttle turnIn shaped isQuickTurn).negInertiaAccumulator := by
    simp only [DriveTrain.mixShaped, hgear, hot, hna, e1, negInertiaScalar_neg, e3,
      decayAccumulator_neg]
  have hqacc : (dt2.mixShaped throttle (-turnIn) (-shaped) isQuickTurn).quickStopAccumulator =
      -(dt.mixShaped throttle turnIn shaped isQuickTurn).quickStopAccumulator := by
    simp only [DriveTrain.mixShaped, hgear, hot, hna, hqs, e1, negInertiaScalar_neg, e2,
      limit_one_neg, decayAccumulator_neg]
    split_ifs <;> ring
  rw [hsw] at hl2 hr2
  cases hm2 : dt2.mixShaped throttle (-turnIn) (-shaped) isQuickTurn with
  | mk o n qs a lp rp =>
    rw [hm2] at hap2 hl2 hr2 hold hnacc hqacc
    simp only at hap2 hl2 hr2 hold hnacc hqacc
    simp only [Mix.mirror, hl, hr, ← hap]
    rw [hold, hnacc, hqacc, hap2, hl2, hr2]
    rfl

theorem shapeTurn_neg (sinF : α → α) (M_PI k turn : α) (hodd : ∀ x, sinF (-x) = -sinF x) :
    shapeTurn sinF M_PI k (-turn) = (shapeTurn sinF M_PI k turn).map fun s => -s := by
  unfold shapeTurn
  by_cases h : sinF (M_PI / 2 * k) = 0
  · rw [if_pos h, if_pos h]
    rfl
  · rw [if_neg h, if_neg h, Option.map_some', mul_neg, hodd, neg_div]

theorem DriveTrain.mix_mirror (sinF : α → α) (M_PI : α) (dt dt2 : DriveTrain α)
    (throttle turn : α) (isQuickTurn : Bool) (hodd : ∀ x, sinF (-x) = -sinF x)
    (hs : dt2.m_settings = dt.m_settings) (hd : dt2.m_deadband = dt.m_deadband)
    (hsens : dt2.m_sensitivity = dt.m_sensitivity)
    (hgear : dt2.getGear = dt.getGear) (hot : dt2.m_oldTurn = -dt.m_oldTurn)
    (hna : dt2.m_negInertiaAccumulator = -dt.m_negInertiaAccumulator)
    (hqs : dt2.m_quickStopAccumulator = -dt.m_quickStopAccumulator)
    (hd0 : 0 ≤ dt.m_deadband) (hd1 : dt.m_deadband < 1) :
    dt2.mix sinF M_PI throttle (-turn) isQuickTurn =
      (dt.mix sinF M_PI throttle turn isQuickTurn).map Mix.mirror := by
  have hlim := limit_one_mem throttle
  have hb := dt.applyDeadband_mem (limit throttle 1) hd1 hlim.1 hlim.2
  unfold DriveTrain.mix
  simp only [dt.applyDeadband_congr dt2 hd, limit_one_neg, dt.applyDeadband_neg _ hd0, hs,
    shapeTurn_neg sinF M_PI _ _ hodd, Option.map_map]
  congr 1
  funext shaped
  exact DriveTrain.mixShaped_mirror dt dt2 _ _ shaped isQuickTurn hsens hgear hot hna hqs
    hb.1 hb.2

/-- C19: for every deadband in `[0, 1)`, every turn non-linearity constant, gear and
sensitivity, if two DriveTrain states agree in configuration, deadband, sensitivity and gear and
have previous turn and both accumulators negated, then `drive(throttle, -turn, q)` from the
second is the mirror image of `drive(throttle, turn, q)` from the first: the two values for
`setManual` are exchanged, the angular power is negated, and the new previous turn and
accumulators are negations of each other again; both calls return when the shaping divisor is
not zero. -/
theorem drive_mirror_symmetric (dt dt2 : DriveTrain ℝ) (throttle turn : ℝ) (isQuickTurn : Bool)
    (hs : dt2.m_settings = dt.m_settings) (hd : dt2.m_deadband = dt.m_deadband)
    (hsens : dt2.m_sensitivity = dt.m_sensitivity)
    (hgear : dt2.getGear = dt.getGear) (hot : dt2.m_oldTurn = -dt.m_oldTurn)
    (hna : dt2.m_negInertiaAccumulator = -dt.m_negInertiaAccumulator)
    (hqs : dt2.m_quickStopAccumulator = -dt.m_quickStopAccumulator)
    (hd0 : 0 ≤ dt.m_deadband) (hd1 : dt.m_deadband < 1) :
    dt2.mix Real.sin Real.pi throttle (-turn) isQuickTurn =
      (dt.mix Real.sin Real.pi throttle turn isQuickTurn).map Mix.mirror ∧
    (dt2.drive Real.sin Real.pi throttle (-turn) isQuickTurn).map
        (fun d => (d.m_oldTurn, d.m_negInertiaAccumulator, d.m_quickStopAccumulator)) =
      (dt.drive Real.sin Real.pi throttle turn isQuickTurn).map
        (fun d => (-d.m_oldTurn, -d.m_negInertiaAccumulator, -d.m_quickStopAccumulator)) ∧
    (Real.sin (Real.pi / 2 * dt.m_settings.TURN_NON_LINEARITY) ≠ 0 →
      ∃ m, dt.mix Real.sin Real.pi throttle turn isQuickTurn = some m ∧
        dt2.mix Real.sin Real.pi throttle (-turn) isQuickTurn = some m.mirror) := by
  have hA := DriveTrain.mix_mirror Real.sin Real.pi dt dt2 throttle turn isQuickTurn
    Real.sin_neg hs hd hsens hgear hot hna hqs hd0 hd1
  refine ⟨hA, ?_, ?_⟩
  · unfold DriveTrain.drive
    rw [hA]
    simp only [Option.map_map]
    congr 1
  · intro hk
    refine ⟨_, dt.mix_of_ne Real.sin Real.pi throttle turn isQuickTurn hk, ?_⟩
    rw [hA, dt.mix_of_ne Real.sin Real.pi throttle turn isQuickTurn hk]
    rfl

/-- Witness for `drive_mirror_symmetric`: `decayingDriveTrain` and `mirroredDriveTrain` with
`drive(0.5, 0.75, true)` and `drive(0.5, -0.75, true)`. -/
theorem drive_mirror_symmetric_witness :
    (mirroredDriveTrain : DriveTrain ℝ).m_oldTurn = -(decayingDriveTrain : DriveTrain ℝ).m_oldTurn ∧
    (mirroredDriveTrain : DriveTrain ℝ).m_negInertiaAccumulator =
      -(decayingDriveTrain : DriveTrain ℝ).m_negInertiaAccumulator ∧
    (mirroredDriveTrain : DriveTrain ℝ).m_quickStopAccumulator =
      -(decayingDriveTrain : DriveTrain ℝ).m_quickStopAccumulator ∧
    ((mirroredDriveTrain : DriveTrain ℝ).mix Real.sin Real.pi 0.5 (-0.75) true =
      ((decayingDriveTrain : DriveTrain ℝ).mix Real.sin Real.pi 0.5 0.75 true).map Mix.mirror ∧
    ((mirroredDriveTrain : DriveTrain ℝ).drive Real.sin Real.pi 0.5 (-0.75) true).map
        (fun d => (d.m_oldTurn, d.m_negInertiaAccumulator, d.m_quickStopAccumulator)) =
      ((decayingDriveTrain : DriveTrain ℝ).drive Real.sin Real.pi 0.5 0.75 true).map
        (fun d => (-d.m_oldTurn, -d.m_negInertiaAccumulator, -d.m_quickStopAccumulator)) ∧
    (Real.sin (Real.pi / 2 * (decayingDriveTrain : DriveTrain ℝ).m_settings.TURN_NON_LINEARITY)
        ≠ 0 →
      ∃ m, (decayingDriveTrain : DriveTrain ℝ).mix Real.sin Real.pi 0.5 0.75 true = some m ∧
        (mirroredDriveTrain : DriveTrain ℝ).mix Real.sin Real.pi 0.5 (-0.75) true
          = some m.mirror)) :=
  have h1 : (mirroredDriveTrain : DriveTrain ℝ).m_oldTurn =
      -(decayingDriveTrain : DriveTrain ℝ).m_oldTurn := by
    show (0 : ℝ) = -0
    simp
  have h2 : (mirroredDriveTrain : DriveTrain ℝ).m_negInertiaAccumulator =
      -(decayingDriveTrain : DriveTrain ℝ).m_negInertiaAccumulator := rfl
  have h3 : (mirroredDriveTrain : DriveTrain ℝ).m_quickStopAccumulator =
      -(decayingDriveTrain : DriveTrain ℝ).m_quickStopAccumulator := by
    show (1.5 : ℝ) = -(-1.5)
    simp
  ⟨h1, h2, h3, drive_mirror_symmetric decayingDriveTrain mirroredDriveTrain 0.5 0.75 true rfl rfl rfl rfl h1 h2 h3
    (by
      show (0 : ℝ) ≤ 0.02
      norm_num)
    (by
      show (0.02 : ℝ) < 1
      norm_num)⟩

end Robot2014
